import Mathlib

/-!
# MonaServer2: Socket send queue, RTMFP writer, FlashStream

A shallow embedding of `Socket.cpp`, `RTMFP/RTMFPWriter.cpp` and
`FlashStream.cpp`.  Member fields become structure fields, member functions
become functions from the old state to the new one, and everything outside
the class (the operating system, the RTMFP output, the server API) is an
explicit environment value that is threaded through the calls.

Byte counts are natural numbers.  A result of type `int` is an `Int`.
-/

namespace Mona

/-! ## Socket: data model -/

abbrev Packet := List UInt8

/-- Endpoint value.  `SocketAddress.h` is not part of the sources: an address
is a (host, port) pair and its `operator bool` is false exactly for the
wildcard (see the remark on the wildcard in `Socket::connect`). -/
structure SocketAddress where
  host : Nat
  port : Nat
deriving DecidableEq, Repr

def SocketAddress.Wildcard : SocketAddress := ⟨0, 0⟩

def SocketAddress.toBool (a : SocketAddress) : Bool := a != SocketAddress.Wildcard

/-- The value stored by `_address.set(IPAddress::Loopback(), 0)`: port 0 on the
loopback host (host number 1), "address must be computed". -/
def SocketAddress.Computable : SocketAddress := ⟨1, 0⟩

inductive SocketType where
  | TYPE_STREAM
  | TYPE_DATAGRAM
deriving DecidableEq, Repr

inductive ShutdownType where
  | SHUTDOWN_RECV
  | SHUTDOWN_SEND
  | SHUTDOWN_BOTH
deriving DecidableEq, Repr

/-- Error codes of `Net::LastError()` that the socket code tells apart
(`Net.h` is not part of the sources; the codes are distinct constructors).
`NET_EINTR` is not listed: an interrupted call is never surfaced, it is
retried, and the environment counts such attempts separately. -/
inductive NetError where
  | NET_EAGAIN
  | NET_EWOULDBLOCK
  | NET_ENOTCONN
  | NET_EISCONN
  | NET_EALREADY
  | NET_EINPROGRESS
  | NET_ECONNREFUSED
  | other (errno : Nat)
deriving DecidableEq, Repr

/-- An `Ex::Net::Socket` held by an `Exception`.  `code` is the errno given to
`SetException`; it is `none` when the exception was set without a code
(the "UDP Packet sent in pieces" error).  The message text is not modelled. -/
structure Exception where
  code : Option NetError
deriving DecidableEq, Repr

/-- Embeds `SetException(ex, error, ...)`. -/
def SetException (error : NetError) : Option Exception := some ⟨some error⟩

/-- One entry of `_sendings`. -/
structure Sending where
  packet : Packet
  address : SocketAddress
  flags : Nat
deriving DecidableEq, Repr

/-- The fields of `Socket` that the send path reads or writes.  `_queueing` is
declared in `Socket.h`, which is not part of the sources, so its width is not
known: the counter is a natural number. -/
structure Socket where
  type : SocketType
  sockfd : Option Nat := some 3
  sockex : Option Exception := none
  address : SocketAddress := SocketAddress.Wildcard
  peerAddress : SocketAddress := SocketAddress.Wildcard
  sendings : List Sending := []
  queueing : Nat := 0
deriving DecidableEq, Repr

/-! ## Socket: the operating system -/

/-- Answer of the OS to a `::send` / `::sendto` that was not interrupted. -/
inductive SendResult where
  | accepted (room : Nat)
  | failed (error : NetError)
deriving DecidableEq, Repr

/-- Behaviour of the OS during one `Socket::sendTo`: `interrupts` attempts end
with `NET_EINTR`, the next attempt ends with `result`. -/
structure OsSend where
  interrupts : Nat
  result : SendResult
deriving DecidableEq, Repr

/-- A successful `::send` (`dest = none`) or `::sendto` as seen by the OS. -/
structure OsSent where
  dest : Option SocketAddress
  flags : Nat
  bytes : Packet
deriving DecidableEq, Repr

/-- The environment of a socket.  `script n` is the behaviour of the OS during
the `n`-th `sendTo` that reaches it and `shutdownOk n` tells whether the
`n`-th `::shutdown` returns 0.  The other fields record what the socket asked
for: `sends` counts the `sendTo` calls answered so far, `sendCalls` the
`::send`/`::sendto` attempts, `accepted` lists the successful ones, oldest
first, and `shutdowns` counts the `::shutdown` calls. -/
structure OS where
  script : Nat → OsSend
  shutdownOk : Nat → Bool
  sends : Nat := 0
  sendCalls : Nat := 0
  accepted : List OsSent := []
  shutdowns : Nat := 0

/-- Largest value of an `int`. -/
def INT_MAX : Nat := 2147483647

/-- Bytes taken by a successful `::send` of `size` bytes when the OS has room
for `room` bytes; the count is returned in an `int`. -/
def osAccepts (room size : Nat) : Nat := min room (min size INT_MAX)

/-- Embeds `::shutdown(_sockfd, how)`: returns whether the call returned 0. -/
def OS.shutdown (os : OS) : Bool × OS :=
  (os.shutdownOk os.shutdowns, { os with shutdowns := os.shutdowns + 1 })

/-- All bytes the OS accepted, in the order of the send calls. -/
def OS.acceptedBytes (os : OS) : Packet := (os.accepted.map OsSent.bytes).flatten

/-! ## Socket: sendTo, write, flush, shutdown -/

/-- Locals `rc` and `error` of `Socket::sendTo` after its retry loop; `error` is
assigned, and read, only when `rc < 0`. -/
structure SendAttempt where
  rc : Int
  error : NetError
  os : OS

/-- Embeds `if (error == NET_EAGAIN) error = NET_EWOULDBLOCK`. -/
def surfaced : NetError → NetError
  | .NET_EAGAIN => .NET_EWOULDBLOCK
  | e => e

/-- The loop `do rc = ::send(...) while (rc < 0 && error == NET_EINTR)` of
`Socket::sendTo`; the first argument is the number of interrupted attempts
that the OS still has in store. -/
def sendRetry (dest : Option SocketAddress) (flags : Nat) (data : Packet) (result : SendResult) :
    Nat → OS → SendAttempt
  | k + 1, os => sendRetry dest flags data result k { os with sendCalls := os.sendCalls + 1 }
  | 0, os =>
    match result with
    | .accepted room =>
      let n := osAccepts room data.length
      { rc := (n : Int), error := .other 0,
        os := { os with sendCalls := os.sendCalls + 1,
                        accepted := os.accepted ++ [⟨dest, flags, data.take n⟩] } }
    | .failed e =>
      { rc := -1, error := e, os := { os with sendCalls := os.sendCalls + 1 } }

/-- Result of a socket call returning `int`. -/
structure IntResult where
  rc : Int
  ex : Option Exception
  socket : Socket
  os : OS

/-- Result of a socket call returning `bool`. -/
structure BoolResult where
  ok : Bool
  ex : Option Exception
  socket : Socket
  os : OS

/-- Destination given to the OS by `Socket::sendTo`: `::sendto(address)` on a
datagram socket with a non-null address, `::send` (`none`) otherwise. -/
def Socket.dest (s : Socket) (address : SocketAddress) : Option SocketAddress :=
  if s.type = .TYPE_DATAGRAM ∧ address.toBool then some address else none

/-- Embeds `Socket::sendTo(ex, data, size, address, flags)`.  `send(rc)`, which keeps
the send time and byte statistics, is not modelled. -/
def Socket.sendTo (s : Socket) (os : OS) (ex : Option Exception) (data : Packet)
    (address : SocketAddress) (flags : Nat) : IntResult :=
  match s.sockex with
  | some e => { rc := -1, ex := some e, socket := s, os := os }
  | none =>
    let o := os.script os.sends
    let a := sendRetry (s.dest address) flags data o.result o.interrupts { os with sends := os.sends + 1 }
    if a.rc < 0 then
      { rc := -1, ex := SetException (surfaced a.error), socket := s, os := a.os }
    else
      let s1 := if !s.address.toBool then { s with address := SocketAddress.Computable } else s
      if a.rc.toNat < data.length ∧ s.type = .TYPE_DATAGRAM then
        { rc := -1, ex := some ⟨none⟩, socket := s1, os := a.os }
      else
        { rc := a.rc, ex := ex, socket := s1, os := a.os }

/-- The test `(code == NET_ENOTCONN && _peerAddress) || code == NET_EWOULDBLOCK`
shared by `Socket::write` and `Socket::flush`. -/
def Socket.mustWait (s : Socket) (ex : Option Exception) : Bool :=
  let code := ex.bind Exception.code
  (code = some NetError.NET_ENOTCONN && s.peerAddress.toBool) || code = some NetError.NET_EWOULDBLOCK

/-- Embeds `Socket::write(ex, packet, address, flags)`. -/
def Socket.write (s : Socket) (os : OS) (ex : Option Exception) (packet : Packet)
    (address : SocketAddress) (flags : Nat) : IntResult :=
  let target := if address.toBool then address else s.peerAddress
  if !s.sendings.isEmpty then
    { rc := 0, ex := ex, os := os,
      socket := { s with sendings := s.sendings ++ [⟨packet, target, flags⟩],
                         queueing := s.queueing + packet.length } }
  else
    let r := s.sendTo os ex packet address 0
    let queue (sent : Nat) (ex1 : Option Exception) : IntResult :=
      let rest : Sending := ⟨packet.drop sent, if address.toBool then address else r.socket.peerAddress, flags⟩
      { rc := (sent : Int), ex := ex1, os := r.os,
        socket := { r.socket with sendings := r.socket.sendings ++ [rest],
                                  queueing := r.socket.queueing + rest.packet.length } }
    if r.rc < 0 then
      if r.socket.mustWait r.ex then
        queue 0 none
      else if r.socket.type = .TYPE_STREAM then
        { rc := -1, ex := r.ex, os := r.os.shutdown.2, socket := { r.socket with sendings := [] } }
      else
        { rc := -1, ex := r.ex, os := r.os, socket := r.socket }
    else if r.rc.toNat ≥ packet.length then
      { rc := (packet.length : Int), ex := r.ex, os := r.os, socket := r.socket }
    else
      queue r.rc.toNat r.ex

/-- State of the loop of `Socket::flush` when it is left: `returned` tells that
it was left by `return false`, `written` is the local counter (a `UInt32`) and
`sendings` is what remains of `_sendings`. -/
structure FlushLoop where
  returned : Bool
  written : Nat
  sendings : List Sending
  ex : Option Exception
  socket : Socket
  os : OS

/-- The loop `while (sent >= 0 && !_sendings.empty())` of `Socket::flush`, run
on the queue given as last argument. -/
def flushLoop (s : Socket) (os : OS) (ex : Option Exception) (written : Nat) :
    List Sending → FlushLoop
  | [] => { returned := false, written := written, sendings := [], ex := ex, socket := s, os := os }
  | sending :: rest =>
    let r := s.sendTo os ex sending.packet sending.address sending.flags
    if r.rc ≥ 0 then
      let written1 := (written + r.rc.toNat) % 4294967296
      if r.rc.toNat < sending.packet.length then
        { returned := false, written := written1,
          sendings := { sending with packet := sending.packet.drop r.rc.toNat } :: rest,
          ex := r.ex, socket := r.socket, os := r.os }
      else
        flushLoop r.socket r.os r.ex written1 rest
    else if r.socket.mustWait r.ex then
      { returned := false, written := written, sendings := sending :: rest,
        ex := none, socket := r.socket, os := r.os }
    else if r.socket.type = .TYPE_STREAM then
      { returned := true, written := written, sendings := [],
        ex := r.ex, socket := r.socket, os := r.os.shutdown.2 }
    else
      { returned := false, written := written, sendings := rest,
        ex := r.ex, socket := r.socket, os := r.os }

/-- Embeds `Socket::flush(ex)`. -/
def Socket.flush (s : Socket) (os : OS) (ex : Option Exception) : BoolResult :=
  match s.sockex with
  | some e => { ok := false, ex := some e, socket := s, os := os }
  | none =>
    let l := flushLoop s os ex 0 s.sendings
    if l.returned then
      { ok := false, ex := l.ex, os := l.os, socket := { l.socket with sendings := l.sendings } }
    else
      { ok := true, ex := l.ex, os := l.os,
        socket := { l.socket with
          sendings := l.sendings,
          queueing := if l.written ≠ 0 then l.socket.queueing - l.written else l.socket.queueing } }

/-- Embeds `Socket::shutdown(type)`; the exception of the flush is dropped. -/
def Socket.shutdown (s : Socket) (os : OS) (type : ShutdownType) : BoolResult :=
  match s.sockfd with
  | none => { ok := false, ex := none, socket := s, os := os }
  | some _ =>
    let f : Socket × OS :=
      if type ≠ .SHUTDOWN_RECV then
        let r := s.flush os none
        (r.socket, r.os)
      else (s, os)
    { ok := f.2.shutdown.1, ex := none, socket := f.1, os := f.2.shutdown.2 }

/-! ## Socket: connect -/

/-- Answer of the OS to `::connect`: `ok` for 0, else the error that
`Net::LastError()` returns after the call. -/
inductive ConnectResult where
  | ok
  | failed (error : NetError)
deriving DecidableEq, Repr

/-- Answer of the OS to the `select` of `Socket::connect`: `ready` for a result
above 0, `timedOut` for 0 with the value that `Net::LastError()` returns then
(`none` for no error code), `failed` for a result below 0. -/
inductive SelectResult where
  | ready
  | timedOut (lastError : Option NetError)
  | failed
deriving DecidableEq, Repr

/-- The OS during one `Socket::connect`; `select` is consulted only when the
call gets that far. -/
structure ConnectOS where
  connect : ConnectResult
  select : SelectResult
deriving DecidableEq, Repr

/-- The OS calls made by `Socket::connect`. -/
inductive ConnectCall where
  | ioctl (nonBlocking : Bool)
  | connect (target : SocketAddress)
  | select (seconds : Nat)
deriving DecidableEq, Repr

/-- Result of `Socket::connect`, with the OS calls it made, in order. -/
structure ConnectOut where
  ok : Bool
  ex : Option Exception
  socket : Socket
  calls : List ConnectCall
deriving DecidableEq, Repr

/-- Embeds `Socket::connect(ex, address, timeout)`.  `error` is the local
variable of that name, `none` for 0; the last line of the function is
`finish`. -/
def Socket.connect (s : Socket) (os : ConnectOS) (ex : Option Exception)
    (address : SocketAddress) (timeout : Nat) : ConnectOut :=
  match s.sockex with
  | some e => { ok := false, ex := some e, socket := s, calls := [] }
  | none =>
    let target :=
      if s.type = .TYPE_DATAGRAM ∧ !address.toBool then SocketAddress.Wildcard else address
    let calls : List ConnectCall :=
      (if timeout ≠ 0 then [.ioctl true] else []) ++ [.connect target] ++
      (if timeout ≠ 0 then [.ioctl false] else [])
    let finish (error : Option NetError) (ex1 : Option Exception) (calls1 : List ConnectCall) :
        ConnectOut :=
      { ok := error.isNone, ex := ex1, calls := calls1,
        socket := { s with address := SocketAddress.Computable, peerAddress := address } }
    match os.connect with
    | .ok => finish none ex calls
    | .failed error =>
      if s.peerAddress.toBool ∨ error = .NET_EISCONN then
        if s.peerAddress = address then
          { ok := true, ex := ex, socket := s, calls := calls }
        else
          { ok := false, ex := SetException .NET_EISCONN, socket := s, calls := calls }
      else if error ≠ .NET_EWOULDBLOCK ∧ error ≠ .NET_EALREADY ∧ error ≠ .NET_EINPROGRESS then
        { ok := false, ex := SetException error, socket := s, calls := calls }
      else if timeout ≠ 0 then
        match os.select with
        | .ready => finish (some .NET_EWOULDBLOCK) ex (calls ++ [.select timeout])
        | .timedOut lastError =>
          { ok := false, ex := some ⟨lastError⟩, socket := s, calls := calls ++ [.select timeout] }
        | .failed =>
          { ok := false, ex := SetException .NET_ECONNREFUSED, socket := s,
            calls := calls ++ [.select timeout] }
      else
        finish (some .NET_EWOULDBLOCK) (SetException .NET_EWOULDBLOCK) calls

/-! ## Socket: sequences of calls -/

/-- A call of the send path, made by the owner of the socket. -/
inductive SocketCall where
  | write (packet : Packet) (address : SocketAddress) (flags : Nat)
  | flush
deriving DecidableEq, Repr

/-- One call, made with a fresh `Exception`. -/
def Socket.call (st : Socket × OS) : SocketCall → Socket × OS
  | .write packet address flags =>
    let r := st.1.write st.2 none packet address flags
    (r.socket, r.os)
  | .flush =>
    let r := st.1.flush st.2 none
    (r.socket, r.os)

/-- A sequence of calls, first call first. -/
def Socket.run (st : Socket × OS) (calls : List SocketCall) : Socket × OS :=
  calls.foldl Socket.call st

/-- Bytes held in a send queue, front to back. -/
def queuedBytes (q : List Sending) : Packet := (q.map Sending.packet).flatten

/-- Bytes passed to `Socket::write` by a sequence of calls, in call order. -/
def writtenBytes : List SocketCall → Packet
  | [] => []
  | .write packet _ _ :: calls => packet ++ writtenBytes calls
  | .flush :: calls => writtenBytes calls

/-- The OS answers that `Socket::write` and `Socket::flush` absorb: bytes
accepted, would-block, or not-connected while a peer address is set. -/
def recoverable (s : Socket) : SendResult → Bool
  | .accepted _ => true
  | .failed .NET_EAGAIN => true
  | .failed .NET_EWOULDBLOCK => true
  | .failed .NET_ENOTCONN => s.peerAddress.toBool
  | .failed _ => false

/-- A stream socket as left by its constructor. -/
def streamSocket : Socket := { type := .TYPE_STREAM }

/-- A datagram socket as left by its constructor. -/
def datagramSocket : Socket := { type := .TYPE_DATAGRAM }

/-- An OS that interrupts the first send once and then blocks it, and has room
for two bytes in every later send. -/
def slowOS : OS :=
  { script := fun n => if n = 0 then ⟨1, .failed .NET_EWOULDBLOCK⟩ else ⟨0, .accepted 2⟩,
    shutdownOk := fun _ => true }

/-- Two writes, a flush, a third write and a second flush. -/
def sampleCalls : List SocketCall :=
  [.write [1, 2, 3] SocketAddress.Wildcard 0, .write [4, 5] SocketAddress.Wildcard 0, .flush,
   .write [6, 7, 8] SocketAddress.Wildcard 0, .flush]

/-- An OS that has room for `room` bytes in every send. -/
def roomyOS (room : Nat) : OS :=
  { script := fun _ => ⟨0, .accepted room⟩, shutdownOk := fun _ => true }

/-- An OS that answers every send with `error`, the first one after two
interrupted attempts. -/
def failingOS (error : NetError) : OS :=
  { script := fun n => ⟨if n = 0 then 2 else 0, .failed error⟩, shutdownOk := fun _ => true }

/-- An OS that blocks the first send and answers every later send with
`error`. -/
def blockThenFail (error : NetError) : OS :=
  { script := fun n => ⟨0, .failed (if n = 0 then .NET_EWOULDBLOCK else error)⟩,
    shutdownOk := fun _ => true }

/-- An OS that blocks the first send and has room for one byte in every later
send. -/
def blockThenOneByte : OS :=
  { script := fun n => ⟨0, if n = 0 then .failed .NET_EWOULDBLOCK else .accepted 1⟩,
    shutdownOk := fun _ => true }

/-- A datagram socket connected to the peer (7, 1935). -/
def connectedDatagram : Socket := { type := .TYPE_DATAGRAM, peerAddress := ⟨7, 1935⟩ }

/-- A stream socket connected to the peer (7, 1935). -/
def connectedStream : Socket := { type := .TYPE_STREAM, peerAddress := ⟨7, 1935⟩ }

/-- An OS whose `::connect` is in progress and whose `select` answers `select`. -/
def inProgressOS (select : SelectResult) : ConnectOS :=
  { connect := .failed .NET_EINPROGRESS, select := select }

/-- A stream socket whose creation failed with errno 24, too many open files. -/
def failedSocket : Socket :=
  { type := .TYPE_STREAM, sockfd := none, sockex := some ⟨some (.other 24)⟩ }

/-- One `write8` / `write32` made on the `AMFWriter` of a message. -/
inductive BinaryWrite where
  | write8 (value : Nat)
  | write32 (value : Nat)
deriving DecidableEq, Repr

/-- A message of the draft sender: the arguments of `newMessage` and what was
written to the `AMFWriter` it returned. -/
structure Message where
  reliable : Bool
  packet : Packet
  body : List BinaryWrite := []
deriving DecidableEq, Repr

/-- The object `RTMFPSender::Queue(id, flowId, signature)`.  `RTMFPSender.h` is not part
of the sources: the queue is its three constructor arguments and the frames
it holds, none when it is built. -/
structure Queue where
  id : Nat
  flowId : Nat
  signature : Packet
  frames : List Message := []
deriving DecidableEq, Repr

/-- The senders handed to `RTMFP::Output::send`, with the queue they share.
`fragments` is `none` for an `RTMFPRepeater` built without a count. -/
inductive Sender where
  | acquiter (queue : Queue) (stageAck : Nat)
  | repeater (queue : Queue) (fragments : Option Nat)
  | messenger (queue : Queue) (messages : List Message)
deriving DecidableEq, Repr

/-- The interface `RTMFP::Output`, the environment of a writer: the value `rto()` returns,
the id `resetWriter(id)` returns, and the senders given to `send`, oldest
first. -/
structure Output where
  rto : Nat
  resetWriter : Nat → Nat
  sent : List Sender := []

def Output.send (out : Output) (sender : Sender) : Output :=
  { out with sent := out.sent ++ [sender] }

/-- The fields of `RTMFPWriter`.  `pSender` is the draft `RTMFPMessenger`
(`none` when `_pSender` is null), `closed` is `Writer::closed()`, and
`repeatTime` is the clock value stored by `_repeatTime.update()`. -/
structure RTMFPWriter where
  stageAck : Nat := 0
  lostCount : Nat := 0
  repeatDelay : Nat := 0
  repeatTime : Nat := 0
  pQueue : Queue
  pSender : Option (List Message) := none
  closed : Bool := false
deriving DecidableEq, Repr

/-- What a writer call reads from outside: the clock, and whether `_pQueue` is
held by the writer alone (`_pQueue.unique()`). -/
structure Moment where
  now : Nat
  unique : Bool
deriving DecidableEq, Repr

/-- Modelled from the spec: `Time::isElapsed`, declared in `Time.h` which is
not part of the sources; "`repeatTime` elapsed ≥ `repeatDelay`". -/
def isElapsed (now time duration : Nat) : Bool := decide ((now : Int) - time ≥ duration)

/-- Significand of the `double` nearest to the literal `1.4142`: the value of
the literal is `sqrt2 / 2^52`. -/
def sqrt2 : Nat := 0x16a0902de00d1b

/-- Number of significant bits of `n`, for `n < 2 ^ fuel`. -/
def bitLength : Nat → Nat → Nat
  | 0, _ => 0
  | fuel + 1, n => if n = 0 then 0 else bitLength fuel (n / 2) + 1

/-- Embeds `(UInt32)(delay * 1.4142)` for `delay < 2^32`: the integer is converted
exactly, the IEEE-754 binary64 product is the exact product rounded to 53
significant bits, to nearest and ties to even, and the conversion to an
integer drops the fraction.  `exact` is the exact product scaled by `2^52`
and `shift` the number of bits that do not fit the significand. -/
def timesSqrt2 (delay : Nat) : Nat :=
  let exact := delay * sqrt2
  let shift := bitLength 96 exact - 53
  let q := exact / 2 ^ shift
  let r := exact % 2 ^ shift
  let rounded := if 2 * r > 2 ^ shift ∨ (2 * r = 2 ^ shift ∧ q % 2 = 1) then q + 1 else q
  rounded * 2 ^ shift / 2 ^ 52

/-! ## RTMFPWriter: operations -/

/-- Embeds `RTMFPWriter::fail()`. -/
def RTMFPWriter.fail (w : RTMFPWriter) (out : Output) : RTMFPWriter × Output :=
  ({ w with stageAck := 0, repeatDelay := 0, lostCount := 0,
            pQueue := { id := out.resetWriter w.pQueue.id, flowId := w.pQueue.flowId,
                        signature := w.pQueue.signature } },
   out)

/-- Embeds `RTMFPWriter::repeatMessages(lostCount)`. -/
def RTMFPWriter.repeatMessages (w : RTMFPWriter) (out : Output) (m : Moment)
    (lostCount : Nat) : RTMFPWriter × Output :=
  if lostCount ≠ 0 then
    (w, out.send (.repeater w.pQueue (some (if lostCount > 0xFF then 0xFF else lostCount))))
  else if !m.unique then
    (w, out)
  else if w.pQueue.frames.isEmpty then
    ({ w with repeatDelay := 0 }, out)
  else if !isElapsed m.now w.repeatTime w.repeatDelay then
    (w, out)
  else
    ({ w with repeatTime := m.now,
              repeatDelay := if w.repeatDelay < 7072 then timesSqrt2 w.repeatDelay else 10000 },
     out.send (.repeater w.pQueue none))

/-- Embeds `RTMFPWriter::acquit(stageAck, lostCount)`. -/
def RTMFPWriter.acquit (w : RTMFPWriter) (out : Output) (m : Moment)
    (stageAck lostCount : Nat) : RTMFPWriter × Output :=
  if stageAck > w.stageAck then
    ({ w with stageAck := stageAck, lostCount := 0, repeatDelay := out.rto, repeatTime := m.now },
     out.send (.acquiter w.pQueue stageAck))
  else if lostCount = 0 then
    (w, out)
  else if lostCount > w.lostCount then
    ({ w with lostCount := lostCount } : RTMFPWriter).repeatMessages out m lostCount
  else
    (w, out)

/-- Embeds `RTMFPWriter::flushing()`. -/
def RTMFPWriter.flushing (w : RTMFPWriter) (out : Output) (m : Moment) : RTMFPWriter × Output :=
  let r := w.repeatMessages out m 0
  match r.1.pSender with
  | none => r
  | some messages =>
    let w1 := if r.1.repeatDelay = 0 then { r.1 with repeatDelay := r.2.rto, repeatTime := m.now } else r.1
    ({ w1 with pSender := none }, r.2.send (.messenger w1.pQueue messages))

/-- Embeds `RTMFPWriter::newMessage(reliable, packet)`; the second component tells
whether the returned `AMFWriter` is the last message of the draft (`true`) or
`AMFWriter::Null()`. -/
def RTMFPWriter.newMessage (w : RTMFPWriter) (reliable : Bool) (packet : Packet) :
    RTMFPWriter × Bool :=
  if w.closed then (w, false)
  else
    ({ w with pSender := some ((w.pSender.getD []) ++ [{ reliable := reliable, packet := packet }]) },
     true)

/-- Writes made on the `AMFWriter` returned by `newMessage`. -/
def RTMFPWriter.body (r : RTMFPWriter × Bool) (writes : List BinaryWrite) : RTMFPWriter :=
  if r.2 then
    match r.1.pSender with
    | some messages =>
      { r.1 with pSender := some (messages.dropLast ++
          (messages.getLast?.map (fun msg => { msg with body := msg.body ++ writes })).toList) }
    | none => r.1
  else r.1

/-- Values of `AMF::Type` used by `RTMFPWriter::write` (`AMF.h` is not part of
the sources; these are the message type ids of the protocol). -/
def AMF.TYPE_AUDIO : Nat := 0x08
def AMF.TYPE_VIDEO : Nat := 0x09
def AMF.TYPE_DATA_AMF3 : Nat := 0x0F

/-- Embeds `RTMFPWriter::write(type, time, packetType, packet, reliable)`. -/
def RTMFPWriter.write (w : RTMFPWriter) (type time : Nat) (packet : Packet) (reliable : Bool) :
    RTMFPWriter :=
  let time1 := if type < AMF.TYPE_AUDIO ∨ type > AMF.TYPE_VIDEO then 0 else time
  RTMFPWriter.body (w.newMessage reliable packet)
    ([.write8 type, .write32 time1] ++ (if type = AMF.TYPE_DATA_AMF3 then [.write8 0] else []))

/-- A call of the virtual `write` made by the base class. -/
structure WriteCall where
  type : Nat
  time : Nat
  packet : Packet
  reliable : Bool
deriving DecidableEq, Repr

/-- Embeds `RTMFPWriter::closing(code, reason)`.  `FlashWriter::closing` is not part of
the sources; it reaches the fields of `RTMFPWriter` only through the virtual
`write`, and `base` lists the calls it makes. -/
def RTMFPWriter.closing (w : RTMFPWriter) (base : List WriteCall) (code : Int) : RTMFPWriter :=
  let w1 := base.foldl (fun w c => w.write c.type c.time c.packet c.reliable) w
  if code ≥ 0 ∧ (w1.stageAck ≠ 0 ∨ w1.repeatDelay ≠ 0) then (w1.newMessage true []).1 else w1

/-- The calls named by the invariant on `stageAck`. -/
inductive WriterCall where
  | acquit (stageAck lostCount : Nat)
  | repeatMessages (lostCount : Nat)
  | flushing
  | newMessage (reliable : Bool) (packet : Packet)
  | write (type time : Nat) (packet : Packet) (reliable : Bool)
  | closing (base : List WriteCall) (code : Int)
deriving DecidableEq, Repr

def RTMFPWriter.call (w : RTMFPWriter) (out : Output) (m : Moment) :
    WriterCall → RTMFPWriter × Output
  | .acquit stageAck lostCount => w.acquit out m stageAck lostCount
  | .repeatMessages lostCount => w.repeatMessages out m lostCount
  | .flushing => w.flushing out m
  | .newMessage reliable packet => ((w.newMessage reliable packet).1, out)
  | .write type time packet reliable => (w.write type time packet reliable, out)
  | .closing base code => (w.closing base code, out)

/-! ## RTMFPWriter: sample values -/

/-- A writer at stage 10 with one frame in its queue. -/
def writer10 : RTMFPWriter :=
  { stageAck := 10, repeatDelay := 3000, repeatTime := 100,
    pQueue := { id := 2, flowId := 7, signature := [0, 84, 67, 4, 0], frames := [{ reliable := true, packet := [1] }] } }

/-- An output with an RTO of 3 seconds that numbers the writers upwards. -/
def output3000 : Output := { rto := 3000, resetWriter := fun id => id + 1 }

/-- The writer `writer10` after an ack for stage 11 received at time 100 from an
output whose RTO is `rto`: its `repeatDelay` is `rto`. -/
def ackedWriter (rto : Nat) : RTMFPWriter :=
  (writer10.acquit { output3000 with rto := rto } ⟨100, true⟩ 11 0).1

/-! ## FlashStream: data model -/

/-- The exception classes that `FlashStream` tells apart with `ex.cast`. -/
inductive ExKind where
  | Unfound
  | Unsupported
  | other
deriving DecidableEq, Repr

/-- An `Exception` set by the server API, with its text. -/
structure ApiException where
  kind : ExKind
  message : String
deriving DecidableEq, Repr

/-- Values of `Subscription::ejected()`. -/
inductive Ejected where
  | EJECTED_NONE
  | EJECTED_TIMEOUT
  | EJECTED_BANDWITDH
  | EJECTED_ERROR
deriving DecidableEq, Repr

/-- What `FlashStream` reads of a `Publication`. -/
structure Publication where
  name : String
  recording : Bool
deriving DecidableEq, Repr

/-- What `FlashStream` reads and sets of a `Subscription`: `target` is the
writer it was built for, `numbers` the `setNumber` calls and `seeks` the
`seek` calls, oldest first. -/
structure Subscription where
  target : Nat
  name : String := ""
  ejected : Ejected := .EJECTED_NONE
  audios : Bool := true
  videos : Bool := true
  numbers : List (String × Nat) := []
  seeks : List Nat := []
deriving DecidableEq, Repr

/-- A decoded AMF value of an invocation. -/
inductive AMFValue where
  | string (value : String)
  | number (value : Nat)
  | boolean (value : Bool)
  | null
deriving DecidableEq, Repr

/-- Modelled from the spec: the AMF reader primitives `readString`,
`readNumber` and `readBoolean` (`AMFReader` is not part of the sources).  A
read succeeds and consumes the next value when it has the type asked for. -/
def readString : List AMFValue → Option String × List AMFValue
  | .string v :: rest => (some v, rest)
  | message => (none, message)

def readNumber : List AMFValue → Option Nat × List AMFValue
  | .number v :: rest => (some v, rest)
  | message => (none, message)

def readBoolean : List AMFValue → Option Bool × List AMFValue
  | .boolean v :: rest => (some v, rest)
  | message => (none, message)

/-- What a `FlashStream` does to the outside, in order: messages written to the
writer numbered `writer` (`FlashWriter` is not part of the sources), the
events `onStart` / `onStop`, and the calls of the server API. -/
inductive Event where
  | status (writer : Nat) (code description : String)
  | statusError (writer : Nat) (code description : String)
  | data (writer : Nat) (name : String)
  | boolean (writer : Nat) (value : Bool)
  | onStart (id writer : Nat)
  | onStop (id writer : Nat)
  | subscribe (stream : String)
  | unsubscribe (name : String)
  | publish (stream : String)
  | unpublish (name : String)
  | recorderOnError (name : String)
  | publicationFlush (name : String)
deriving DecidableEq, Repr

/-- The server API as seen from a stream: the state in which `api.subscribe`
leaves the new subscription, or its exception, and the publication returned by
`api.publish` together with the exception it may set even on success. -/
structure ServerAPI where
  subscribe : String → Subscription → Except ApiException Subscription
  publish : String → Option Publication × Option ApiException

/-- The fields of `FlashStream`. -/
structure FlashStream where
  id : Nat
  pPublication : Option Publication := none
  pSubscription : Option Subscription := none
  bufferTime : Nat := 0
  track : Nat := 0
  media : Nat := 0
deriving DecidableEq, Repr

/-! ## FlashStream: disengage, flush, bufferTime, messageHandler -/

/-- First part of `FlashStream::disengage`: the publication. -/
def FlashStream.disengagePublication (fs : FlashStream) (trace : List Event)
    (pWriter : Option Nat) : FlashStream × List Event :=
  match fs.pPublication with
  | none => (fs, trace)
  | some publication =>
    let written : List Event :=
      match pWriter with
      | none => []
      | some writer =>
        (if publication.recording then
          [.status writer "NetStream.Record.Stop" (publication.name ++ " recording stopped")]
         else []) ++
        [.status writer "NetStream.Unpublish.Success" (publication.name ++ " is now unpublished")]
    ({ fs with pPublication := none }, trace ++ written ++ [.unpublish publication.name])

/-- Second part of `FlashStream::disengage`: the subscription. -/
def FlashStream.disengageSubscription (fs : FlashStream) (trace : List Event)
    (pWriter : Option Nat) : FlashStream × List Event :=
  match fs.pSubscription with
  | none => (fs, trace)
  | some subscription =>
    let name := subscription.name
    let written : List Event :=
      match pWriter with
      | none => []
      | some writer =>
        (match subscription.ejected with
          | .EJECTED_TIMEOUT =>
            [Event.statusError writer "NetStream.Play.StreamNotFound" (name ++ " not found")]
          | .EJECTED_BANDWITDH =>
            [Event.statusError writer "NetStream.Play.InsufficientBW"
              ("Insufficient bandwidth to play " ++ name)]
          | .EJECTED_ERROR =>
            [Event.statusError writer "NetStream.Play.Failed" ("Unknown error to play " ++ name)]
          | .EJECTED_NONE => []) ++
        [.status writer "NetStream.Play.Stop" ("Stopped playing " ++ name), .onStop fs.id writer]
    ({ fs with pSubscription := none }, trace ++ written ++ [.unsubscribe name])

/-- Embeds `FlashStream::disengage(pWriter)`. -/
def FlashStream.disengage (fs : FlashStream) (trace : List Event) (pWriter : Option Nat) :
    FlashStream × List Event :=
  let r := fs.disengagePublication trace pWriter
  r.1.disengageSubscription r.2 pWriter

/-- Embeds `FlashStream::flush()`. -/
def FlashStream.flush (fs : FlashStream) (trace : List Event) : FlashStream × List Event :=
  let trace1 := match fs.pPublication with
    | some publication => trace ++ [.publicationFlush publication.name]
    | none => trace
  match fs.pSubscription with
  | some subscription =>
    if subscription.ejected ≠ .EJECTED_NONE then fs.disengage trace1 (some subscription.target)
    else (fs, trace1)
  | none => (fs, trace1)

/-- Embeds `FlashStream::bufferTime(ms)`. -/
def FlashStream.setBufferTime (fs : FlashStream) (ms : Nat) : FlashStream :=
  { fs with bufferTime := ms,
            pSubscription := fs.pSubscription.map
              (fun sub => { sub with numbers := sub.numbers ++ [("bufferTime", ms)] }) }

/-- Modelled from the spec: `String::ICompare(a, b) == 0` (`String.h` is not
part of the sources), the two strings are equal up to the case of letters. -/
def ICompareEq (a b : String) : Bool := a.data.map Char.toLower == b.data.map Char.toLower

/-- Index of the first `c` in `l` (`std::string::find`). -/
def findChar (c : Char) (l : List Char) : Option Nat :=
  match l.indexOf c with
  | i => if i < l.length then some i else none

/-- Index of the last `c` in `l` at or before `pos` (`std::string::find_last_of`);
`pos = none` stands for `npos`. -/
def findLastOf (c : Char) (l : List Char) (pos : Option Nat) : Option Nat :=
  let searched := match pos with
    | some p => l.take (p + 1)
    | none => l
  match findChar c searched.reverse with
  | some i => some (searched.length - 1 - i)
  | none => none

/-- The name given to `api.publish` by the `publish` command for the stream
name and the optional second argument of the invocation. -/
def publishName (stream : String) (type : Option String) : String :=
  match type with
  | none => stream
  | some type =>
    if ICompareEq type "append" then
      stream ++ (if findChar '?' stream.data = none then "?" else "&") ++ "append=true"
    else if ICompareEq type "record" then
      let found := findChar '?' stream.data
      match findLastOf '.' stream.data found with
      | some _ => stream
      | none =>
        match found with
        | none => stream ++ ".flv"
        | some i => String.mk (stream.data.take i ++ ".flv".data ++ stream.data.drop i)
    else stream

/-- The commands of `FlashStream::messageHandler` that need a subscription. -/
def FlashStream.subscriptionHandler (fs : FlashStream) (trace : List Event) (name : String)
    (message : List AMFValue) (writer : Nat) (sub : Subscription) :
    Option (FlashStream × List Event) :=
  if name = "receiveAudio" then
    match (readBoolean message).1 with
    | some enable => some ({ fs with pSubscription := some { sub with audios := enable } }, trace)
    | none => some (fs, trace)
  else if name = "receiveVideo" then
    match (readBoolean message).1 with
    | some enable => some ({ fs with pSubscription := some { sub with videos := enable } }, trace)
    | none => some (fs, trace)
  else if name = "pause" then
    let paused := ((readBoolean message).1).getD true
    if paused then some (fs, trace)
    else
      match (readNumber (readBoolean message).2).1 with
      | some position =>
        some ({ fs with pSubscription := some { sub with seeks := sub.seeks ++ [position] } },
              trace ++ [.onStart fs.id writer])
      | none => some (fs, trace ++ [.onStart fs.id writer])
  else if name = "seek" then
    match (readNumber message).1 with
    | some position =>
      some ({ fs with pSubscription := some { sub with seeks := sub.seeks ++ [position] } },
            trace ++ [.onStart fs.id writer])
    | none =>
      some (fs, trace ++ [.statusError writer "NetStream.Seek.InvalidTime"
        (sub.name ++ " seek operation must pass in argument a milliseconds position time")])
  else none

/-- Embeds `FlashStream::messageHandler(name, message, writer, netStats)`; the error
log of an unknown name is not modelled. -/
def FlashStream.messageHandler (fs : FlashStream) (api : ServerAPI) (trace : List Event)
    (name : String) (message : List AMFValue) (writer : Nat) : FlashStream × List Event :=
  if name = "play" then
    let d := fs.disengage trace (some writer)
    let stream := ((readString message).1).getD ""
    match api.subscribe stream { target := writer } with
    | .error ex =>
      ({ d.1 with pSubscription := none },
       d.2 ++ [.subscribe stream,
               .statusError writer
                 (if ex.kind = .Unfound then "NetStream.Play.StreamNotFound" else "NetStream.Play.Failed")
                 ex.message])
    | .ok sub =>
      let sub1 : Subscription :=
        if d.1.bufferTime ≠ 0 then
          { sub with numbers := sub.numbers ++ [("bufferTime", d.1.bufferTime)] }
        else sub
      ({ d.1 with pSubscription := some sub1 },
       d.2 ++ [.subscribe stream,
               .onStart fs.id writer,
               .status writer "NetStream.Play.Reset" ("Playing and resetting " ++ stream),
               .status writer "NetStream.Play.Start" ("Started playing " ++ stream),
               .data writer "|RtmpSampleAccess",
               .boolean writer true,
               .boolean writer true])
  else if name = "closeStream" then
    fs.disengage trace (some writer)
  else if name = "publish" then
    let d := fs.disengage trace (some writer)
    let r := readString message
    let stream := publishName (r.1.getD "") (readString r.2).1
    match api.publish stream with
    | (some publication, ex) =>
      ({ d.1 with pPublication := some publication, track := 0, media := 0 },
       d.2 ++ [.publish stream,
               .status writer "NetStream.Publish.Start" (stream ++ " is now published")] ++
         (if publication.recording then
            [.recorderOnError publication.name,
             .status writer "NetStream.Record.Start" (stream ++ " recording started")]
          else
            match ex with
            | some e =>
              [.statusError writer
                (if e.kind = .Unsupported then "NetStream.Record.Failed" else "NetStream.Record.NoAccess")
                e.message]
            | none => []))
    | (none, ex) =>
      ({ d.1 with pPublication := none },
       d.2 ++ [.publish stream,
               .statusError writer "NetStream.Publish.BadName" ((ex.map ApiException.message).getD "")])
  else
    match fs.pSubscription with
    | some sub => (fs.subscriptionHandler trace name message writer sub).getD (fs, trace)
    | none => (fs, trace)

/-! ## FlashStream: sequences of calls -/

/-- Embeds `FlashStream::FlashStream(id, api, peer, amf0)`: no publication, no
subscription, no buffer time. -/
def FlashStream.new (id : Nat) : FlashStream := { id := id }

/-- A call made on a stream by its session.  `message` is an invocation as
`FlashStream::process` hands it to `messageHandler`, with the answers of the
server API at that moment. -/
inductive StreamCall where
  | message (api : ServerAPI) (name : String) (message : List AMFValue) (writer : Nat)
  | flush
  | disengage (pWriter : Option Nat)
  | bufferTime (ms : Nat)

/-- One call on a stream and the trace of what it did so far. -/
def FlashStream.call (st : FlashStream × List Event) : StreamCall → FlashStream × List Event
  | .message api name message writer => st.1.messageHandler api st.2 name message writer
  | .flush => st.1.flush st.2
  | .disengage pWriter => st.1.disengage st.2 pWriter
  | .bufferTime ms => (st.1.setBufferTime ms, st.2)

/-- A sequence of calls, first call first. -/
def FlashStream.run (st : FlashStream × List Event) (calls : List StreamCall) :
    FlashStream × List Event :=
  calls.foldl FlashStream.call st

/-- The stream does not hold a publication and a subscription together. -/
def FlashStream.oneRole (fs : FlashStream) : Prop :=
  fs.pPublication = none ∨ fs.pSubscription = none

/-! ## FlashStream: the control commands of dataHandler -/

/-- Markers of AMF0 values (`AMF.h` is not part of the sources; these are the
marker bytes of the format). -/
def AMF.AMF0_STRING : UInt8 := 0x02
def AMF.AMF0_NULL : UInt8 := 0x05

/-- The bytes of a command name, as given to `memcmp` by `EXPAND(name)`. -/
def commandName (name : String) : List UInt8 := name.data.map (fun c => c.toNat.toUInt8)

/-- Indices of the packet read by `memcmp(packet.data() + offset, name, n)`,
in order, when the bytes are compared one after the other until two differ.
An index that is not below the size of the packet is a read outside of it;
what is found there is not known and the comparison is taken to end. -/
def memcmpReads (packet : Packet) : Nat → List UInt8 → List Nat
  | _, [] => []
  | offset, c :: name =>
    offset :: (if packet[offset]? = some c then memcmpReads packet (offset + 1) name else [])

/-- Indices of the packet read by the `memcmp` calls of
`FlashStream::dataHandler(timestamp, packet)`: none for an empty packet, on a
stream that does not publish, or for a packet that starts with the AMF0 null
marker (the first encoding, which has no `memcmp`). -/
def FlashStream.commandReads (fs : FlashStream) (packet : Packet) : List Nat :=
  if packet.isEmpty then []
  else
    match fs.pPublication with
    | none => []
    | some _ =>
      if packet[0]? = some AMF.AMF0_NULL then []
      else if packet[0]? = some AMF.AMF0_STRING ∧ packet.length > 3 ∧ packet[3]? = some 0x40 ∧
          packet[1]? = some 0 then
        if packet[2]? = some 15 then memcmpReads packet 3 (commandName "@clearDataFrame")
        else if packet[2]? = some 13 then memcmpReads packet 3 (commandName "@setDataFrame")
        else if packet[2]? = some 6 then memcmpReads packet 3 (commandName "@track")
        else []
      else []

/-! ## FlashStream: sample values -/

/-- A server API on which only the stream "live" is published and every name
but "taken" can be published. -/
def liveAPI : ServerAPI :=
  { subscribe := fun stream sub =>
      if stream = "live" then .ok { sub with name := "live" }
      else .error ⟨.Unfound, stream ++ " not found"⟩,
    publish := fun stream =>
      if stream = "taken" then (none, some ⟨.other, "taken is already publishing"⟩)
      else (some ⟨stream, false⟩, none) }

/-- Whether an event is a message written to a writer (a status, a status
error, a data message or a value of its body). -/
def Event.written : Event → Bool
  | .status _ _ _ => true
  | .statusError _ _ _ => true
  | .data _ _ => true
  | .boolean _ _ => true
  | _ => false

/-- A stream without role on which a buffer time of 2 seconds was set. -/
def idleStream : FlashStream := { id := 1, bufferTime := 2000 }

/-- A stream that plays "live" for the writer 4. -/
def playingStream : FlashStream :=
  { id := 1, pSubscription := some { target := 4, name := "live" } }

/-- A stream that publishes "clip". -/
def publishingStream : FlashStream := { id := 1, pPublication := some ⟨"clip", false⟩ }

/-! # Theorems -/

/-! ## Socket: the retry loop and sendTo -/

theorem sendRetry_frame (dest : Option SocketAddress) (flags : Nat) (data : Packet)
    (result : SendResult) (k : Nat) (os : OS) :
    (sendRetry dest flags data result k os).os.script = os.script ∧
    (sendRetry dest flags data result k os).os.shutdownOk = os.shutdownOk ∧
    (sendRetry dest flags data result k os).os.sends = os.sends ∧
    (sendRetry dest flags data result k os).os.shutdowns = os.shutdowns := by
  induction k generalizing os with
  | zero => cases result <;> simp [sendRetry]
  | succ k ih => simp [sendRetry, ih]

theorem sendRetry_accepted (dest : Option SocketAddress) (flags : Nat) (data : Packet)
    (room k : Nat) (os : OS) :
    (sendRetry dest flags data (.accepted room) k os).rc = (osAccepts room data.length : Int) ∧
    (sendRetry dest flags data (.accepted room) k os).os.accepted =
      os.accepted ++ [⟨dest, flags, data.take (osAccepts room data.length)⟩] := by
  induction k generalizing os with
  | zero => simp [sendRetry]
  | succ k ih => simp [sendRetry, ih]

theorem sendRetry_failed (dest : Option SocketAddress) (flags : Nat) (data : Packet)
    (e : NetError) (k : Nat) (os : OS) :
    (sendRetry dest flags data (.failed e) k os).rc = -1 ∧
    (sendRetry dest flags data (.failed e) k os).error = e ∧
    (sendRetry dest flags data (.failed e) k os).os.accepted = os.accepted := by
  induction k generalizing os with
  | zero => simp [sendRetry]
  | succ k ih => simp [sendRetry, ih]

theorem sendRetry_calls (dest : Option SocketAddress) (flags : Nat) (data : Packet)
    (result : SendResult) (k : Nat) (os : OS) :
    (sendRetry dest flags data result k os).os.sendCalls = os.sendCalls + k + 1 := by
  induction k generalizing os with
  | zero => cases result <;> simp [sendRetry]
  | succ k ih => simp [sendRetry, ih]; omega

theorem osAccepts_le (room size : Nat) : osAccepts room size ≤ size := by
  unfold osAccepts; omega

/-- The call `sendTo` changes nothing of the socket but `_address`, and nothing of the
script of the OS. -/
theorem sendTo_frame (s : Socket) (os : OS) (ex : Option Exception) (data : Packet)
    (address : SocketAddress) (flags : Nat) :
    (s.sendTo os ex data address flags).socket.type = s.type ∧
    (s.sendTo os ex data address flags).socket.sockex = s.sockex ∧
    (s.sendTo os ex data address flags).socket.sockfd = s.sockfd ∧
    (s.sendTo os ex data address flags).socket.peerAddress = s.peerAddress ∧
    (s.sendTo os ex data address flags).socket.sendings = s.sendings ∧
    (s.sendTo os ex data address flags).socket.queueing = s.queueing ∧
    (s.sendTo os ex data address flags).os.script = os.script ∧
    (s.sendTo os ex data address flags).os.shutdownOk = os.shutdownOk := by
  unfold Socket.sendTo
  cases hx : s.sockex with
  | some e => simp [hx]
  | none =>
    simp only
    split_ifs <;> simp [hx, sendRetry_frame]

/-- The call `sendTo` on a socket without sticky error when the OS accepts bytes. -/
theorem sendTo_accepted (s : Socket) (os : OS) (ex : Option Exception) (data : Packet)
    (address : SocketAddress) (flags room k : Nat) (hx : s.sockex = none)
    (ho : os.script os.sends = ⟨k, .accepted room⟩) :
    (s.sendTo os ex data address flags).os.acceptedBytes =
      os.acceptedBytes ++ data.take (osAccepts room data.length) ∧
    (s.sendTo os ex data address flags).os.shutdowns = os.shutdowns ∧
    (s.sendTo os ex data address flags).os.sends = os.sends + 1 ∧
    ((s.sendTo os ex data address flags).rc, (s.sendTo os ex data address flags).ex) =
      (if osAccepts room data.length < data.length ∧ s.type = .TYPE_DATAGRAM
        then ((-1 : Int), some ⟨none⟩) else ((osAccepts room data.length : Int), ex)) := by
  unfold Socket.sendTo
  simp only [hx, ho]
  obtain ⟨hrc, hacc⟩ :=
    sendRetry_accepted (s.dest address) flags data room k { os with sends := os.sends + 1 }
  obtain ⟨-, -, hs, hsh⟩ :=
    sendRetry_frame (s.dest address) flags data (.accepted room) k { os with sends := os.sends + 1 }
  generalize sendRetry (s.dest address) flags data (.accepted room) k
    { os with sends := os.sends + 1 } = a at hrc hacc hs hsh ⊢
  have hnn : ¬ ((osAccepts room data.length : Int) < 0) := by omega
  simp only [hrc, hnn, if_false, Int.toNat_ofNat]
  split_ifs <;> simp_all [OS.acceptedBytes]

/-- The call `sendTo` on a socket without sticky error when the OS refuses. -/
theorem sendTo_failed (s : Socket) (os : OS) (ex : Option Exception) (data : Packet)
    (address : SocketAddress) (flags k : Nat) (e : NetError) (hx : s.sockex = none)
    (ho : os.script os.sends = ⟨k, .failed e⟩) :
    (s.sendTo os ex data address flags).rc = -1 ∧
    (s.sendTo os ex data address flags).ex = some ⟨some (surfaced e)⟩ ∧
    (s.sendTo os ex data address flags).socket = s ∧
    (s.sendTo os ex data address flags).os.accepted = os.accepted ∧
    (s.sendTo os ex data address flags).os.shutdowns = os.shutdowns ∧
    (s.sendTo os ex data address flags).os.sends = os.sends + 1 := by
  unfold Socket.sendTo
  simp only [hx, ho]
  obtain ⟨hrc, herr, hacc⟩ :=
    sendRetry_failed (s.dest address) flags data e k { os with sends := os.sends + 1 }
  obtain ⟨-, -, hs, hsh⟩ :=
    sendRetry_frame (s.dest address) flags data (.failed e) k { os with sends := os.sends + 1 }
  generalize sendRetry (s.dest address) flags data (.failed e) k
    { os with sends := os.sends + 1 } = a at hrc herr hacc hs hsh ⊢
  cases e <;> simp [hrc, herr, hacc, hs, hsh, surfaced, SetException]

theorem mustWait_of_recoverable (s : Socket) (e : NetError)
    (h : recoverable s (.failed e) = true) : s.mustWait (some ⟨some (surfaced e)⟩) = true := by
  cases e <;> simp_all [recoverable, Socket.mustWait, surfaced]

theorem queuedBytes_cons (x : Sending) (q : List Sending) :
    queuedBytes (x :: q) = x.packet ++ queuedBytes q := by
  simp [queuedBytes]

theorem queuedBytes_append (q r : List Sending) :
    queuedBytes (q ++ r) = queuedBytes q ++ queuedBytes r := by
  simp [queuedBytes]

/-! ## Socket: order of the bytes (C1) -/

/-- On a stream socket whose OS never answers with an unrecoverable error the
loop of `flush` never returns early and moves bytes from the front of the queue
to the OS, in order. -/
theorem flushLoop_stream (q : List Sending) (s : Socket) (os : OS) (ex : Option Exception)
    (w : Nat) (ht : s.type = .TYPE_STREAM) (hx : s.sockex = none)
    (hr : ∀ n, recoverable s (os.script n).result = true) :
    (flushLoop s os ex w q).returned = false ∧
    (flushLoop s os ex w q).os.acceptedBytes ++ queuedBytes (flushLoop s os ex w q).sendings =
      os.acceptedBytes ++ queuedBytes q ∧
    (flushLoop s os ex w q).socket.type = s.type ∧
    (flushLoop s os ex w q).socket.sockex = s.sockex ∧
    (flushLoop s os ex w q).socket.peerAddress = s.peerAddress ∧
    (flushLoop s os ex w q).os.script = os.script := by
  induction q generalizing s os ex w with
  | nil => simp [flushLoop, queuedBytes]
  | cons x rest ih =>
    obtain ⟨hft, hfx, -, hfp, -, -, hfs, -⟩ := sendTo_frame s os ex x.packet x.address x.flags
    have hrn := hr os.sends
    rcases hsc : os.script os.sends with ⟨k, result⟩
    rw [hsc] at hrn
    cases result with
    | accepted room =>
      obtain ⟨hacc, -, -, hrc⟩ := sendTo_accepted s os ex x.packet x.address x.flags room k hx hsc
      rw [if_neg (by simp [ht])] at hrc
      have hrc := congrArg Prod.fst hrc
      simp only at hrc
      · unfold flushLoop
        have hnn : ((osAccepts room x.packet.length : Nat) : Int) ≥ 0 := by omega
        simp only [hrc, hnn, if_true, Int.toNat_ofNat]
        split_ifs with hlt
        · simp only [hft, hfx, hfp, hfs, hacc, queuedBytes_cons, List.append_assoc]
          simp only [← List.append_assoc, List.take_append_drop]
          simp
        · have hrec : ∀ n, recoverable (s.sendTo os ex x.packet x.address x.flags).socket
              ((s.sendTo os ex x.packet x.address x.flags).os.script n).result = true := by
            intro n
            have := hr n
            rw [hfs]
            cases hres : (os.script n).result with
            | accepted r => rfl
            | failed e => rw [hres] at this; cases e <;> simp_all [recoverable]
          obtain ⟨h1, h2, h3, h4, h5, h6⟩ := ih (s.sendTo os ex x.packet x.address x.flags).socket
            (s.sendTo os ex x.packet x.address x.flags).os (s.sendTo os ex x.packet x.address x.flags).ex
            ((w + osAccepts room x.packet.length) % 4294967296) (by rw [hft, ht]) (by rw [hfx, hx]) hrec
          refine ⟨h1, ?_, by rw [h3, hft], by rw [h4, hfx], by rw [h5, hfp], by rw [h6, hfs]⟩
          rw [h2, hacc, queuedBytes_cons, List.append_assoc]
          have hle := osAccepts_le room x.packet.length
          rw [List.take_of_length_le (by omega)]
    | failed e =>
      obtain ⟨hrc, hex, hso, hacc, -, -⟩ := sendTo_failed s os ex x.packet x.address x.flags k e hx hsc
      have hmw := mustWait_of_recoverable s e hrn
      unfold flushLoop
      have hneg : ¬ ((-1 : Int) ≥ 0) := by omega
      simp only [hrc, hneg, if_false, hso, hex, hmw, if_true, OS.acceptedBytes, hacc]
      simp [hfs]

/-- One call on a stream socket whose OS never answers with an unrecoverable
error: the bytes of the call are appended behind the bytes already queued. -/
theorem call_stream (c : SocketCall) (s : Socket) (os : OS)
    (ht : s.type = .TYPE_STREAM) (hx : s.sockex = none)
    (hr : ∀ n, recoverable s (os.script n).result = true) :
    (Socket.call (s, os) c).2.acceptedBytes ++ queuedBytes (Socket.call (s, os) c).1.sendings =
      os.acceptedBytes ++ queuedBytes s.sendings ++ writtenBytes [c] ∧
    (Socket.call (s, os) c).1.type = s.type ∧
    (Socket.call (s, os) c).1.sockex = s.sockex ∧
    (Socket.call (s, os) c).1.peerAddress = s.peerAddress ∧
    (Socket.call (s, os) c).2.script = os.script := by
  cases c with
  | flush =>
    obtain ⟨h1, h2, h3, h4, h5, h6⟩ := flushLoop_stream s.sendings s os none 0 ht hx hr
    simp only [Socket.call, Socket.flush, hx, h1, writtenBytes, List.append_nil]
    simp [h2, h3, h4, h5, h6, hx]
  | write packet address flags =>
    by_cases hq0 : s.sendings = []
    · have hq : (!s.sendings.isEmpty) = false := by simp [hq0]
      simp only [Socket.call, Socket.write, writtenBytes, List.append_nil, hq, Bool.false_eq_true,
        if_false]
      obtain ⟨hft, hfx, -, hfp, hfq, -, hfs, -⟩ := sendTo_frame s os none packet address 0
      have hrn := hr os.sends
      rcases hsc : os.script os.sends with ⟨k, result⟩
      rw [hsc] at hrn
      cases result with
      | accepted room =>
        obtain ⟨hacc, -, -, hrc⟩ := sendTo_accepted s os none packet address 0 room k hx hsc
        rw [if_neg (by simp [ht])] at hrc
        have hrc := congrArg Prod.fst hrc
        simp only at hrc
        · have hnn : ¬ (((osAccepts room packet.length : Nat) : Int) < 0) := by omega
          simp only [hrc, hnn, if_false, Int.toNat_ofNat]
          have hle := osAccepts_le room packet.length
          by_cases hge : osAccepts room packet.length ≥ packet.length
          · simp only [hge, if_true, hacc, hft, hfx, hfp, hfs, hfq, hq0]
            rw [List.take_of_length_le (by omega)]
            simp [queuedBytes]
          · simp only [hge, if_false, hacc, hft, hfx, hfp, hfs, hfq, hq0]
            simp [queuedBytes]
      | failed e =>
        obtain ⟨hrc, hex, hso, hacc, -, -⟩ := sendTo_failed s os none packet address 0 k e hx hsc
        have hmw := mustWait_of_recoverable s e hrn
        have hneg : (-1 : Int) < 0 := by omega
        simp only [hrc, hneg, if_true, hso, hex, hmw, OS.acceptedBytes, hacc, hq0]
        simp [queuedBytes, hfs]
    · have hq : (!s.sendings.isEmpty) = true := by
        cases hs : s.sendings with
        | nil => exact absurd hs hq0
        | cons a l => rfl
      simp only [Socket.call, Socket.write, writtenBytes, List.append_nil, hq, if_true]
      simp [queuedBytes_append, queuedBytes]

theorem run_stream (calls : List SocketCall) (s : Socket) (os : OS)
    (ht : s.type = .TYPE_STREAM) (hx : s.sockex = none)
    (hr : ∀ n, recoverable s (os.script n).result = true) :
    (Socket.run (s, os) calls).2.acceptedBytes ++ queuedBytes (Socket.run (s, os) calls).1.sendings =
      os.acceptedBytes ++ queuedBytes s.sendings ++ writtenBytes calls := by
  induction calls generalizing s os with
  | nil => simp [Socket.run, writtenBytes]
  | cons c calls ih =>
    obtain ⟨h1, h2, h3, h4, h5⟩ := call_stream c s os ht hx hr
    have hrec : ∀ n, recoverable (Socket.call (s, os) c).1
        ((Socket.call (s, os) c).2.script n).result = true := by
      intro n
      have := hr n
      rw [h5]
      cases hres : (os.script n).result with
      | accepted r => rfl
      | failed e => rw [hres] at this; cases e <;> simp_all [recoverable]
    have := ih (Socket.call (s, os) c).1 (Socket.call (s, os) c).2 (by rw [h2, ht]) (by rw [h3, hx]) hrec
    simp only [Socket.run, List.foldl_cons] at this ⊢
    rw [this, h1]
    cases c <;> simp [writtenBytes]

/-- C1, the claim fails on a socket with a sticky error: on a stream socket
whose creation failed, `write` never reaches the OS, so no OS send fails, and
it drops the packet: nothing is accepted, nothing is queued, and the bytes
written are 1, 2, 3. -/
theorem Socket.write_order_sticky :
    failedSocket.type = .TYPE_STREAM ∧
    (∀ n, recoverable failedSocket ((roomyOS 10).script n).result = true) ∧
    (Socket.run (failedSocket, roomyOS 10)
      [.write [1, 2, 3] SocketAddress.Wildcard 0]).2.sendCalls = 0 ∧
    (Socket.run (failedSocket, roomyOS 10)
      [.write [1, 2, 3] SocketAddress.Wildcard 0]).2.acceptedBytes = [] ∧
    (Socket.run (failedSocket, roomyOS 10)
      [.write [1, 2, 3] SocketAddress.Wildcard 0]).1.sendings = [] ∧
    writtenBytes [.write [1, 2, 3] SocketAddress.Wildcard 0] = [1, 2, 3] ∧
    (Socket.run (failedSocket, roomyOS 10)
        [.write [1, 2, 3] SocketAddress.Wildcard 0]).2.acceptedBytes ++
      queuedBytes (Socket.run (failedSocket, roomyOS 10)
        [.write [1, 2, 3] SocketAddress.Wildcard 0]).1.sendings ≠
      writtenBytes [.write [1, 2, 3] SocketAddress.Wildcard 0] :=
  ⟨rfl, fun _ => rfl, by decide, by decide, by decide, by decide, by decide⟩

/-- C1 as amended: on a stream socket created without error, for every sequence of
`write` and `flush` calls during which the OS answers no send with an
unrecoverable error, the bytes accepted by the OS followed by the bytes held in
the send queue are the bytes that were there before followed by the packets
written, in call order; starting with nothing sent and nothing queued, the
accepted bytes are a prefix of the written bytes and the queue holds exactly
the rest.  A packet written while the queue is not empty goes behind the queue
and the OS is not contacted. -/
theorem Socket.write_order (calls : List SocketCall) (s : Socket) (os : OS)
    (ht : s.type = .TYPE_STREAM) (hx : s.sockex = none)
    (hr : ∀ n, recoverable s (os.script n).result = true) :
    ((Socket.run (s, os) calls).2.acceptedBytes ++ queuedBytes (Socket.run (s, os) calls).1.sendings =
      os.acceptedBytes ++ queuedBytes s.sendings ++ writtenBytes calls) ∧
    (s.sendings = [] → os.accepted = [] →
      (Socket.run (s, os) calls).2.acceptedBytes <+: writtenBytes calls ∧
      (Socket.run (s, os) calls).2.acceptedBytes ++ queuedBytes (Socket.run (s, os) calls).1.sendings =
        writtenBytes calls) ∧
    (∀ (ex : Option Exception) (packet : Packet) (address : SocketAddress) (flags : Nat),
      s.sendings ≠ [] →
        (s.write os ex packet address flags).rc = 0 ∧
        (s.write os ex packet address flags).socket.sendings =
          s.sendings ++ [⟨packet, if address.toBool then address else s.peerAddress, flags⟩] ∧
        (s.write os ex packet address flags).os.accepted = os.accepted ∧
        (s.write os ex packet address flags).os.sendCalls = os.sendCalls) := by
  have hrun := run_stream calls s os ht hx hr
  refine ⟨hrun, ?_, ?_⟩
  · intro hq ha
    have h : (Socket.run (s, os) calls).2.acceptedBytes ++
        queuedBytes (Socket.run (s, os) calls).1.sendings = writtenBytes calls := by
      rw [hrun, hq]; simp [OS.acceptedBytes, ha, queuedBytes]
    exact ⟨⟨_, h⟩, h⟩
  · intro ex packet address flags hq
    have hq1 : (!s.sendings.isEmpty) = true := by
      cases hs : s.sendings with
      | nil => exact absurd hs hq
      | cons a l => rfl
    simp [Socket.write, hq1]

theorem Socket.write_order_witness :
    ((Socket.run (streamSocket, slowOS) sampleCalls).2.acceptedBytes = [1, 2, 3, 4, 5, 6, 7] ∧
      queuedBytes (Socket.run (streamSocket, slowOS) sampleCalls).1.sendings = [8]) ∧
    (Socket.run (streamSocket, slowOS) sampleCalls).2.acceptedBytes ++
      queuedBytes (Socket.run (streamSocket, slowOS) sampleCalls).1.sendings =
        writtenBytes sampleCalls :=
  ⟨by decide,
   ((Socket.write_order sampleCalls streamSocket slowOS rfl rfl
      (by intro n; by_cases h : n = 0 <;> simp [slowOS, h, recoverable])).2.1 rfl rfl).2⟩

/-! ## Socket: partial sends (C2) and absorbed errors (C3) -/

/-- C2: `write` on a socket without sticky error whose queue is empty, when the
OS accepts `k < |P|` bytes of the packet `P`.  On a stream socket `write`
returns `k`, leaves the exception as it was, the queue holds the single segment
`P` without its first `k` bytes (with the target and flags of the call) and
`queueing` grows by `|P| - k`; with `|P| = 10240`, `k = 4096` and nothing
counted before, the result is 4096 and `queueing` is 6144.  On a datagram
socket `write` returns -1 with an exception and leaves queue and counter
as they were. -/
theorem Socket.write_short (s : Socket) (os : OS) (ex : Option Exception) (P : Packet)
    (address : SocketAddress) (flags room i : Nat)
    (hq : s.sendings = []) (hx : s.sockex = none)
    (ho : os.script os.sends = ⟨i, .accepted room⟩)
    (hk : osAccepts room P.length < P.length) :
    (s.type = .TYPE_STREAM →
      (s.write os ex P address flags).rc = (osAccepts room P.length : Int) ∧
      (s.write os ex P address flags).ex = ex ∧
      (s.write os ex P address flags).socket.sendings =
        [⟨P.drop (osAccepts room P.length), if address.toBool then address else s.peerAddress, flags⟩] ∧
      (P.drop (osAccepts room P.length)).length = P.length - osAccepts room P.length ∧
      (s.write os ex P address flags).socket.queueing =
        s.queueing + (P.length - osAccepts room P.length) ∧
      (s.write os ex P address flags).os.acceptedBytes =
        os.acceptedBytes ++ P.take (osAccepts room P.length) ∧
      (P.length = 10240 → osAccepts room P.length = 4096 → s.queueing = 0 →
        (s.write os ex P address flags).rc = 4096 ∧
        (s.write os ex P address flags).socket.queueing = 6144)) ∧
    (s.type = .TYPE_DATAGRAM →
      (s.write os ex P address flags).rc = -1 ∧
      (s.write os ex P address flags).ex = some ⟨none⟩ ∧
      (s.write os ex P address flags).socket.sendings = [] ∧
      (s.write os ex P address flags).socket.queueing = s.queueing) := by
  have hqe : (!s.sendings.isEmpty) = false := by simp [hq]
  obtain ⟨hft, hfx, -, hfp, hfq, hfn, -, -⟩ := sendTo_frame s os ex P address 0
  obtain ⟨hacc, -, -, hrc⟩ := sendTo_accepted s os ex P address 0 room i hx ho
  constructor
  · intro ht
    rw [if_neg (by simp [ht])] at hrc
    have hrc1 := congrArg Prod.fst hrc
    have hex1 := congrArg Prod.snd hrc
    simp only at hrc1 hex1
    have hnn : ¬ (((osAccepts room P.length : Nat) : Int) < 0) := by omega
    have hge : ¬ (osAccepts room P.length ≥ P.length) := by omega
    simp only [Socket.write, hqe, Bool.false_eq_true, if_false]
    simp only [hrc1, hnn, Int.toNat_ofNat, hge, if_false, hex1, hfp, hfq, hfn, hq, hacc,
      List.nil_append, List.length_drop, true_and]
    intro h1 h2 h3
    rw [h1] at h2
    rw [h1, h2, h3]
    simp
  · intro ht
    rw [if_pos ⟨hk, ht⟩] at hrc
    have hrc1 := congrArg Prod.fst hrc
    have hex1 := congrArg Prod.snd hrc
    simp only at hrc1 hex1
    have hneg : (-1 : Int) < 0 := by omega
    simp only [Socket.write, hqe, Bool.false_eq_true, if_false]
    simp [hrc1, hex1, Socket.mustWait, hft, ht, hfq, hfn, hq]

theorem Socket.write_short_witness :
    (streamSocket.write (roomyOS 4096) none (List.replicate 10240 0) SocketAddress.Wildcard 0).rc = 4096 ∧
    (streamSocket.write (roomyOS 4096) none (List.replicate 10240 0)
      SocketAddress.Wildcard 0).socket.queueing = 6144 :=
  ((Socket.write_short streamSocket (roomyOS 4096) none (List.replicate 10240 0)
      SocketAddress.Wildcard 0 4096 0 rfl rfl rfl
      (by rw [List.length_replicate]; decide)).1 rfl).2.2.2.2.2.2
    (List.length_replicate _ _) (by rw [List.length_replicate]; decide) rfl

/-- C3: `write` on a socket whose queue is empty, when the direct `sendTo` fails
and the error is would-block, or not-connected while the peer address is set:
`write` returns 0 with the exception cleared, the queue holds the whole packet
(with the target and flags of the call) and `queueing` grows by `|P|`. -/
theorem Socket.write_absorbs (s : Socket) (os : OS) (ex : Option Exception) (P : Packet)
    (address : SocketAddress) (flags : Nat)
    (hq : s.sendings = [])
    (hf : (s.sendTo os ex P address 0).rc < 0)
    (hc : (s.sendTo os ex P address 0).ex.bind Exception.code = some .NET_EWOULDBLOCK ∨
      ((s.sendTo os ex P address 0).ex.bind Exception.code = some .NET_ENOTCONN ∧
        s.peerAddress.toBool = true)) :
    (s.write os ex P address flags).rc = 0 ∧
    (s.write os ex P address flags).ex = none ∧
    (s.write os ex P address flags).socket.sendings =
      [⟨P, if address.toBool then address else s.peerAddress, flags⟩] ∧
    (s.write os ex P address flags).socket.queueing = s.queueing + P.length := by
  have hqe : (!s.sendings.isEmpty) = false := by simp [hq]
  obtain ⟨-, -, -, hfp, hfq, hfn, -, -⟩ := sendTo_frame s os ex P address 0
  have hmw : (s.sendTo os ex P address 0).socket.mustWait (s.sendTo os ex P address 0).ex = true := by
    unfold Socket.mustWait
    rcases hc with h | ⟨h, hp⟩
    · simp [h]
    · simp [h, hfp, hp]
  simp only [Socket.write, hqe, Bool.false_eq_true, if_false]
  simp [hf, hmw, hfp, hfq, hfn, hq]

theorem Socket.write_absorbs_witness :
    ((streamSocket.write (failingOS .NET_EAGAIN) none [1, 2, 3] SocketAddress.Wildcard 0).rc = 0 ∧
      (streamSocket.write (failingOS .NET_EAGAIN) none [1, 2, 3] SocketAddress.Wildcard 0).ex = none ∧
      (streamSocket.write (failingOS .NET_EAGAIN) none [1, 2, 3]
        SocketAddress.Wildcard 0).socket.sendings = [⟨[1, 2, 3], SocketAddress.Wildcard, 0⟩] ∧
      (streamSocket.write (failingOS .NET_EAGAIN) none [1, 2, 3]
        SocketAddress.Wildcard 0).socket.queueing = 3) ∧
    (({ datagramSocket with peerAddress := ⟨7, 1935⟩ } : Socket).write (failingOS .NET_ENOTCONN)
      none [9] SocketAddress.Wildcard 0).socket.queueing = 1 :=
  ⟨Socket.write_absorbs streamSocket (failingOS .NET_EAGAIN) none [1, 2, 3] SocketAddress.Wildcard 0
      rfl (by decide) (by decide),
   (Socket.write_absorbs { datagramSocket with peerAddress := ⟨7, 1935⟩ } (failingOS .NET_ENOTCONN)
      none [9] SocketAddress.Wildcard 0 rfl (by decide) (by decide)).2.2.2⟩

/-! ## Socket: the byte counter (C4) -/

/-- C4: a flush that fails leaves `queueing` behind.  A datagram socket queues
a 3-byte datagram because the OS would block; the next flush gets "connection
refused" for it, drops it and returns true without counting its bytes: the
queue is empty and `queueing` is 3.  The same happens when the OS takes only a
part of the datagram.  On a stream socket a flush that meets a connection
reset (errno 104) clears the queue and returns false before it updates
`queueing`, with the same outcome. -/
theorem Socket.flush_error_keeps_queueing :
    ((Socket.run (datagramSocket, blockThenFail .NET_ECONNREFUSED)
        [.write [1, 2, 3] ⟨7, 1935⟩ 0]).1.sendings = [⟨[1, 2, 3], ⟨7, 1935⟩, 0⟩] ∧
      (Socket.run (datagramSocket, blockThenFail .NET_ECONNREFUSED)
        [.write [1, 2, 3] ⟨7, 1935⟩ 0]).1.queueing = 3) ∧
    ((Socket.run (datagramSocket, blockThenFail .NET_ECONNREFUSED)
        [.write [1, 2, 3] ⟨7, 1935⟩ 0, .flush]).1.sendings = [] ∧
      (Socket.run (datagramSocket, blockThenFail .NET_ECONNREFUSED)
        [.write [1, 2, 3] ⟨7, 1935⟩ 0, .flush]).1.queueing = 3) ∧
    ((Socket.run (datagramSocket, blockThenOneByte)
        [.write [1, 2, 3] ⟨7, 1935⟩ 0, .flush]).1.sendings = [] ∧
      (Socket.run (datagramSocket, blockThenOneByte)
        [.write [1, 2, 3] ⟨7, 1935⟩ 0, .flush]).1.queueing = 3) ∧
    ((Socket.run (streamSocket, blockThenFail (.other 104))
        [.write [1, 2, 3] SocketAddress.Wildcard 0, .flush]).1.sendings = [] ∧
      (Socket.run (streamSocket, blockThenFail (.other 104))
        [.write [1, 2, 3] SocketAddress.Wildcard 0, .flush]).1.queueing = 3) := by
  decide

/-! ## Socket: shutdown (C5) -/

/-- C6: an ack for a stage above `stageAck` stores the stage, zeroes
`lostCount`, sets `repeatDelay` to the RTO of the output and `repeatTime` to
the clock, leaves the rest of the writer alone and submits one sender, the
acquiter of the queue for the new stage. -/
theorem RTMFPWriter.acquit_progress (w : RTMFPWriter) (out : Output) (m : Moment)
    (stageAck lostCount : Nat) (h : stageAck > w.stageAck) :
    (w.acquit out m stageAck lostCount).1 =
      { w with stageAck := stageAck, lostCount := 0, repeatDelay := out.rto, repeatTime := m.now } ∧
    (w.acquit out m stageAck lostCount).2.sent = out.sent ++ [.acquiter w.pQueue stageAck] ∧
    (w.acquit out m stageAck lostCount).2.rto = out.rto := by
  simp [RTMFPWriter.acquit, h, Output.send]

theorem RTMFPWriter.acquit_progress_witness :
    (writer10.acquit output3000 ⟨500, true⟩ 12 4).1 =
      { writer10 with stageAck := 12, lostCount := 0, repeatDelay := 3000, repeatTime := 500 } ∧
    (writer10.acquit output3000 ⟨500, true⟩ 12 4).2.sent = [.acquiter writer10.pQueue 12] :=
  ⟨(RTMFPWriter.acquit_progress writer10 output3000 ⟨500, true⟩ 12 4 (by decide)).1,
   (RTMFPWriter.acquit_progress writer10 output3000 ⟨500, true⟩ 12 4 (by decide)).2.1⟩

/-- C7: an ack for a stage not above `stageAck` leaves `stageAck`,
`repeatDelay` and the queue as they are.  With a lost count of 0, or one not
above the stored `lostCount`, nothing changes and nothing is submitted.  With
a lost count `L` above it, `lostCount` becomes `L` and one sender is
submitted, the repeater of the queue for `min L 255` frames.  With
`lostCount = 0` and `stageAck ≥ 5` the acks (5, 2) and (5, 3) submit the
repeaters for 2 and for 3 frames. -/
theorem RTMFPWriter.acquit_obsolete (w : RTMFPWriter) (out : Output) (m : Moment)
    (s L : Nat) (h : s ≤ w.stageAck) :
    (w.acquit out m s L).1.stageAck = w.stageAck ∧
    (w.acquit out m s L).1.repeatDelay = w.repeatDelay ∧
    (w.acquit out m s L).1.pQueue = w.pQueue ∧
    (L = 0 ∨ L ≤ w.lostCount → w.acquit out m s L = (w, out)) ∧
    (L > w.lostCount →
      (w.acquit out m s L).1 = { w with lostCount := L } ∧
      (w.acquit out m s L).2.sent = out.sent ++ [.repeater w.pQueue (some (min L 255))]) ∧
    (5 ≤ w.stageAck → w.lostCount = 0 → ∀ m1 : Moment,
      ((w.acquit out m 5 2).1.acquit (w.acquit out m 5 2).2 m1 5 3).2.sent =
        out.sent ++ [.repeater w.pQueue (some 2), .repeater w.pQueue (some 3)]) := by
  have hs : ¬ s > w.stageAck := by omega
  have hmin : ∀ n : Nat, (if n > 255 then 255 else n) = min n 255 := by
    intro n; split_ifs <;> omega
  refine ⟨?_, ?_, ?_, ?_, ?_, ?_⟩
  · simp only [RTMFPWriter.acquit, hs, if_false, RTMFPWriter.repeatMessages]
    split_ifs <;> rfl
  · simp only [RTMFPWriter.acquit, hs, if_false, RTMFPWriter.repeatMessages]
    split_ifs <;> rfl
  · simp only [RTMFPWriter.acquit, hs, if_false, RTMFPWriter.repeatMessages]
    split_ifs <;> rfl
  · intro hL
    simp only [RTMFPWriter.acquit, hs, if_false]
    split_ifs with h0 h1
    · rfl
    · omega
    · rfl
  · intro hL
    have h0 : L ≠ 0 := by omega
    simp [RTMFPWriter.acquit, hs, h0, hL, RTMFPWriter.repeatMessages, Output.send, hmin]
  · intro h5 hl m1
    have h5' : ¬ 5 > w.stageAck := by omega
    simp [RTMFPWriter.acquit, h5', hl, RTMFPWriter.repeatMessages, Output.send]

theorem RTMFPWriter.acquit_obsolete_witness :
    (writer10.acquit output3000 ⟨500, true⟩ 5 2).2.sent = [.repeater writer10.pQueue (some 2)] ∧
    ((writer10.acquit output3000 ⟨500, true⟩ 5 2).1.acquit
      (writer10.acquit output3000 ⟨500, true⟩ 5 2).2 ⟨600, true⟩ 5 3).2.sent =
      [.repeater writer10.pQueue (some 2), .repeater writer10.pQueue (some 3)] ∧
    writer10.acquit output3000 ⟨500, true⟩ 5 0 = (writer10, output3000) :=
  ⟨((RTMFPWriter.acquit_obsolete writer10 output3000 ⟨500, true⟩ 5 2 (by decide)).2.2.2.2.1
      (by decide)).2,
   (RTMFPWriter.acquit_obsolete writer10 output3000 ⟨500, true⟩ 5 2 (by decide)).2.2.2.2.2
      (by decide) rfl ⟨600, true⟩,
   (RTMFPWriter.acquit_obsolete writer10 output3000 ⟨500, true⟩ 5 0 (by decide)).2.2.2.1
      (Or.inl rfl)⟩

/-! ## RTMFPWriter: stageAck never decreases (C8) -/

theorem repeatMessages_stageAck (w : RTMFPWriter) (out : Output) (m : Moment) (lostCount : Nat) :
    (w.repeatMessages out m lostCount).1.stageAck = w.stageAck := by
  unfold RTMFPWriter.repeatMessages
  split_ifs <;> rfl

theorem newMessage_stageAck (w : RTMFPWriter) (reliable : Bool) (packet : Packet) :
    (w.newMessage reliable packet).1.stageAck = w.stageAck := by
  unfold RTMFPWriter.newMessage
  split_ifs <;> rfl

theorem body_stageAck (r : RTMFPWriter × Bool) (writes : List BinaryWrite) :
    (RTMFPWriter.body r writes).stageAck = r.1.stageAck := by
  unfold RTMFPWriter.body
  split_ifs
  · cases r.1.pSender <;> rfl
  · rfl

theorem write_stageAck (w : RTMFPWriter) (type time : Nat) (packet : Packet) (reliable : Bool) :
    (w.write type time packet reliable).stageAck = w.stageAck := by
  unfold RTMFPWriter.write
  simp only [body_stageAck, newMessage_stageAck]

theorem closing_stageAck (base : List WriteCall) (w : RTMFPWriter) (code : Int) :
    (w.closing base code).stageAck = w.stageAck := by
  have hfold : ∀ (l : List WriteCall) (v : RTMFPWriter),
      (l.foldl (fun w c => w.write c.type c.time c.packet c.reliable) v).stageAck = v.stageAck := by
    intro l
    induction l with
    | nil => intro v; rfl
    | cons c l ih => intro v; rw [List.foldl_cons, ih, write_stageAck]
  unfold RTMFPWriter.closing
  simp only
  split_ifs
  · rw [newMessage_stageAck, hfold]
  · rw [hfold]

/-- C8: `acquit`, `repeatMessages`, `flushing`, `newMessage`, `write` and
`closing` never lower `stageAck`, whatever the output, the clock and the
arguments are; `fail` sets `stageAck`, `repeatDelay` and `lostCount` to 0 and
replaces the queue by an empty one with the same flow id and signature and
the id that `resetWriter` of the output returns for the old id. -/
theorem RTMFPWriter.stageAck_monotone (w : RTMFPWriter) (out : Output) (m : Moment) :
    (∀ c : WriterCall, w.stageAck ≤ (w.call out m c).1.stageAck) ∧
    (w.fail out).1.stageAck = 0 ∧
    (w.fail out).1.repeatDelay = 0 ∧
    (w.fail out).1.lostCount = 0 ∧
    (w.fail out).1.pQueue =
      { id := out.resetWriter w.pQueue.id, flowId := w.pQueue.flowId,
        signature := w.pQueue.signature, frames := [] } ∧
    (w.fail out).2.sent = out.sent := by
  refine ⟨?_, rfl, rfl, rfl, rfl, rfl⟩
  intro c
  cases c with
  | acquit stageAck lostCount =>
    simp only [RTMFPWriter.call, RTMFPWriter.acquit]
    split_ifs with h1 h2 h3
    · exact Nat.le_of_lt h1
    · exact Nat.le_refl _
    · rw [repeatMessages_stageAck]
    · exact Nat.le_refl _
  | repeatMessages lostCount =>
    simp only [RTMFPWriter.call, repeatMessages_stageAck, Nat.le_refl]
  | flushing =>
    have h := repeatMessages_stageAck w out m 0
    simp only [RTMFPWriter.call, RTMFPWriter.flushing]
    cases hs : (w.repeatMessages out m 0).1.pSender with
    | none => simp only [h, Nat.le_refl]
    | some messages =>
      simp only
      split_ifs <;> simp only [h, Nat.le_refl]
  | newMessage reliable packet =>
    simp only [RTMFPWriter.call, newMessage_stageAck, Nat.le_refl]
  | write type time packet reliable =>
    simp only [RTMFPWriter.call, write_stageAck, Nat.le_refl]
  | closing base code =>
    simp only [RTMFPWriter.call, closing_stageAck, Nat.le_refl]

/-! ## RTMFPWriter: growth of repeatDelay (C9) -/

/-- The literal `1.4142` is read as the `double` `sqrt2 / 2^52`: no other
multiple of `2^-52` is nearer to it. -/
theorem sqrt2_nearest : |(sqrt2 : ℚ) / 2 ^ 52 - 1.4142| ≤ 1 / 2 ^ 53 := by
  rw [abs_le]
  constructor <;> norm_num [sqrt2]

theorem bitLength_le (fuel : Nat) : ∀ n k : Nat, n < 2 ^ k → bitLength fuel n ≤ k := by
  induction fuel with
  | zero => intro n k _; simp [bitLength]
  | succ fuel ih =>
    intro n k h
    unfold bitLength
    split_ifs with h0
    · exact Nat.zero_le _
    · cases k with
      | zero => simp at h; omega
      | succ k =>
        have : n / 2 < 2 ^ k := by rw [pow_succ] at h; omega
        have := ih (n / 2) k this
        omega

/-- The rounded product is within `2^13` of the exact one. -/
theorem rounded_near (d : Nat) (h : d < 7072) :
    ∃ R : Nat, timesSqrt2 d = R / 2 ^ 52 ∧ R ≤ d * sqrt2 + 8192 ∧ d * sqrt2 ≤ R + 8192 := by
  have hs : bitLength 96 (d * sqrt2) - 53 ≤ 13 := by
    have h53 : sqrt2 < 2 ^ 53 := by norm_num [sqrt2]
    have : d * sqrt2 < 2 ^ 66 := by
      calc d * sqrt2 < 7072 * 2 ^ 53 := Nat.mul_lt_mul'' h h53
        _ ≤ 2 ^ 66 := by norm_num
    have := bitLength_le 96 _ 66 this
    omega
  unfold timesSqrt2
  simp only
  generalize bitLength 96 (d * sqrt2) - 53 = s at hs
  have hpow : 2 ^ s ≤ 8192 := by
    calc 2 ^ s ≤ 2 ^ 13 := Nat.pow_le_pow_right (by norm_num) hs
      _ = 8192 := by norm_num
  have hmod : d * sqrt2 % 2 ^ s < 2 ^ s := Nat.mod_lt _ (by positivity)
  have hdiv : d * sqrt2 / 2 ^ s * 2 ^ s + d * sqrt2 % 2 ^ s = d * sqrt2 := by
    rw [Nat.mul_comm]; exact Nat.div_add_mod _ _
  refine ⟨_, rfl, ?_, ?_⟩
  · split_ifs
    · rw [Nat.add_mul]; omega
    · omega
  · split_ifs
    · rw [Nat.add_mul]; omega
    · omega

/-- The truncated `double` product is the floor of the exact product with the
decimal 1.4142, except for 5000. -/
theorem timesSqrt2_floor (d : Nat) (h : d < 7072) :
    timesSqrt2 d = if d = 5000 then 7070 else d * 14142 / 10000 := by
  split_ifs with h5
  · rw [h5]; decide
  · obtain ⟨R, hR, h1, h2⟩ := rounded_near d h
    rw [hR]
    simp only [sqrt2] at h1 h2
    norm_num at h1 h2 ⊢
    by_cases hF : d * 14142 % 10000 = 0
    · omega
    · omega
theorem floor_sqrt2 (d : Nat) : ⌊(d : ℚ) * 1.4142⌋₊ = d * 14142 / 10000 := by
  have : (d : ℚ) * 1.4142 = ((d * 14142 : ℕ) : ℚ) / ((10000 : ℕ) : ℚ) := by
    push_cast; norm_num; ring
  rw [this, Nat.floor_div_eq_div]

/-- C9, the claim fails at two delays.  A writer whose `repeatDelay` was set
to an RTO of 5000 ms by an ack gets 7070 from the time-driven repeat, while
the floor of 5000 × 1.4142 is 7071: the `double` nearest to 1.4142 lies below
it.  A writer whose `repeatDelay` was set to an RTO of 20000 ms gets 10000,
which is smaller. -/
theorem RTMFPWriter.repeatDelay_not_floor :
    (ackedWriter 5000).repeatDelay = 5000 ∧
    ((ackedWriter 5000).repeatMessages output3000 ⟨6000, true⟩ 0).1.repeatDelay = 7070 ∧
    ⌊((5000 : ℕ) : ℚ) * 1.4142⌋₊ = 7071 ∧
    (ackedWriter 20000).repeatDelay = 20000 ∧
    ((ackedWriter 20000).repeatMessages output3000 ⟨30000, true⟩ 0).1.repeatDelay = 10000 ∧
    ((ackedWriter 20000).repeatMessages output3000 ⟨30000, true⟩ 0).2.sent =
      [.repeater (ackedWriter 20000).pQueue none] :=
  ⟨by decide, by decide, (floor_sqrt2 5000).trans (by norm_num), by decide, by decide, by decide⟩

/-- C9 as amended: when a time-driven repeat fires (no lost count, queue held
by the writer alone and not empty, `repeatTime` elapsed), the new
`repeatDelay` is the truncated `double` product `timesSqrt2 d` for the old
value `d < 7072` and 10000 otherwise.  For `d < 7072` that is the floor of
`d × 1.4142`, except for `d = 5000` where it is 7070.  The new value is at
most 10000 and, if `d ≤ 10000`, at least `d`; 7071 gives 9999 and 7072 gives
10000.  The repeat stores the clock and submits one repeater without count. -/
theorem RTMFPWriter.repeatDelay_growth (w : RTMFPWriter) (out : Output) (m : Moment)
    (hu : m.unique = true) (hq : w.pQueue.frames ≠ [])
    (he : isElapsed m.now w.repeatTime w.repeatDelay = true) :
    (w.repeatMessages out m 0).1.repeatDelay =
      (if w.repeatDelay < 7072 then timesSqrt2 w.repeatDelay else 10000) ∧
    (w.repeatDelay < 7072 → w.repeatDelay ≠ 5000 →
      (w.repeatMessages out m 0).1.repeatDelay = ⌊(w.repeatDelay : ℚ) * 1.4142⌋₊) ∧
    (w.repeatDelay = 5000 → (w.repeatMessages out m 0).1.repeatDelay = 7070) ∧
    (7072 ≤ w.repeatDelay → (w.repeatMessages out m 0).1.repeatDelay = 10000) ∧
    (w.repeatMessages out m 0).1.repeatDelay ≤ 10000 ∧
    (w.repeatDelay ≤ 10000 → w.repeatDelay ≤ (w.repeatMessages out m 0).1.repeatDelay) ∧
    (w.repeatDelay = 7071 → (w.repeatMessages out m 0).1.repeatDelay = 9999) ∧
    (w.repeatMessages out m 0).1.repeatTime = m.now ∧
    (w.repeatMessages out m 0).2.sent = out.sent ++ [.repeater w.pQueue none] := by
  have hne : w.pQueue.frames.isEmpty = false := by
    cases hf : w.pQueue.frames with
    | nil => exact absurd hf hq
    | cons a l => rfl
  have hnew : (w.repeatMessages out m 0).1.repeatDelay =
      (if w.repeatDelay < 7072 then timesSqrt2 w.repeatDelay else 10000) := by
    simp [RTMFPWriter.repeatMessages, hu, hne, he]
  have hrest : (w.repeatMessages out m 0).1.repeatTime = m.now ∧
      (w.repeatMessages out m 0).2.sent = out.sent ++ [.repeater w.pQueue none] := by
    simp [RTMFPWriter.repeatMessages, hu, hne, he, Output.send]
  rw [hnew]
  refine ⟨rfl, ?_, ?_, ?_, ?_, ?_, ?_, hrest⟩
  · intro h1 h2
    rw [if_pos h1, timesSqrt2_floor _ h1, if_neg h2, floor_sqrt2]
  · intro h1
    have h2 : w.repeatDelay < 7072 := by omega
    rw [if_pos h2, timesSqrt2_floor _ h2, if_pos h1]
  · intro h1
    rw [if_neg (by omega)]
  · split_ifs with h1
    · rw [timesSqrt2_floor _ h1]
      split_ifs <;> omega
    · exact Nat.le_refl _
  · intro h1
    split_ifs with h2
    · rw [timesSqrt2_floor _ h2]
      split_ifs <;> omega
    · exact h1
  · intro h1
    have h2 : w.repeatDelay < 7072 := by omega
    rw [if_pos h2, timesSqrt2_floor _ h2, if_neg (by omega), h1]

theorem RTMFPWriter.repeatDelay_growth_witness :
    ((ackedWriter 3000).repeatMessages output3000 ⟨4000, true⟩ 0).1.repeatDelay = 4242 ∧
    ((ackedWriter 7071).repeatMessages output3000 ⟨9000, true⟩ 0).1.repeatDelay = 9999 ∧
    ((ackedWriter 7072).repeatMessages output3000 ⟨9000, true⟩ 0).1.repeatDelay = 10000 :=
  ⟨((RTMFPWriter.repeatDelay_growth (ackedWriter 3000) output3000 ⟨4000, true⟩ rfl
      (by decide) (by decide)).1).trans (by decide),
   (RTMFPWriter.repeatDelay_growth (ackedWriter 7071) output3000 ⟨9000, true⟩ rfl
      (by decide) (by decide)).2.2.2.2.2.2.1 rfl,
   (RTMFPWriter.repeatDelay_growth (ackedWriter 7072) output3000 ⟨9000, true⟩ rfl
      (by decide) (by decide)).2.2.2.1 (by decide)⟩

/-! ## FlashStream: play (C10) -/

/-- C10: "play" of the stream `n` on a stream that neither publishes nor
plays, when `api.subscribe` succeeds.  The handler calls `api.subscribe`,
raises `onStart` and writes, in this order, the status NetStream.Play.Reset
"Playing and resetting n", the status NetStream.Play.Start "Started playing
n", the data message "|RtmpSampleAccess" and the booleans true, true; nothing
else is written.  Afterwards the stream holds the subscription as the API left
it, with the pending buffer time set on it when that is not 0, and no
publication. -/
theorem FlashStream.play_success (fs : FlashStream) (api : ServerAPI) (trace : List Event)
    (n : String) (rest : List AMFValue) (writer : Nat) (sub : Subscription)
    (hp : fs.pPublication = none) (hs : fs.pSubscription = none)
    (hok : api.subscribe n { target := writer } = .ok sub) :
    (fs.messageHandler api trace "play" (.string n :: rest) writer).2 =
      trace ++ [.subscribe n, .onStart fs.id writer,
        .status writer "NetStream.Play.Reset" ("Playing and resetting " ++ n),
        .status writer "NetStream.Play.Start" ("Started playing " ++ n),
        .data writer "|RtmpSampleAccess", .boolean writer true, .boolean writer true] ∧
    ((fs.messageHandler api trace "play" (.string n :: rest) writer).2.drop trace.length).filter
        Event.written =
      [.status writer "NetStream.Play.Reset" ("Playing and resetting " ++ n),
        .status writer "NetStream.Play.Start" ("Started playing " ++ n),
        .data writer "|RtmpSampleAccess", .boolean writer true, .boolean writer true] ∧
    (fs.messageHandler api trace "play" (.string n :: rest) writer).1.pSubscription =
      some (if fs.bufferTime ≠ 0
        then { sub with numbers := sub.numbers ++ [("bufferTime", fs.bufferTime)] } else sub) ∧
    (fs.messageHandler api trace "play" (.string n :: rest) writer).1.pPublication = none := by
  have hd : fs.disengage trace (some writer) = (fs, trace) := by
    simp [FlashStream.disengage, FlashStream.disengagePublication,
      FlashStream.disengageSubscription, hp, hs]
  have htrace : (fs.messageHandler api trace "play" (.string n :: rest) writer).2 =
      trace ++ [.subscribe n, .onStart fs.id writer,
        .status writer "NetStream.Play.Reset" ("Playing and resetting " ++ n),
        .status writer "NetStream.Play.Start" ("Started playing " ++ n),
        .data writer "|RtmpSampleAccess", .boolean writer true, .boolean writer true] := by
    simp [FlashStream.messageHandler, hd, readString, hok]
  refine ⟨htrace, ?_, ?_, ?_⟩
  · rw [htrace, List.drop_left]
    simp [Event.written]
  · simp only [FlashStream.messageHandler, if_true, hd, readString, Option.getD_some, hok]
  · simp [FlashStream.messageHandler, hd, readString, hok, hp]

theorem FlashStream.play_success_witness :
    (idleStream.messageHandler liveAPI [] "play" [.string "live"] 4).2 =
      [.subscribe "live", .onStart 1 4,
        .status 4 "NetStream.Play.Reset" "Playing and resetting live",
        .status 4 "NetStream.Play.Start" "Started playing live",
        .data 4 "|RtmpSampleAccess", .boolean 4 true, .boolean 4 true] ∧
    (idleStream.messageHandler liveAPI [] "play" [.string "live"] 4).1.pSubscription =
      some { target := 4, name := "live", numbers := [("bufferTime", 2000)] } :=
  ⟨(FlashStream.play_success idleStream liveAPI [] "live" [] 4 { target := 4, name := "live" }
      rfl rfl rfl).1,
   (FlashStream.play_success idleStream liveAPI [] "live" [] 4 { target := 4, name := "live" }
      rfl rfl rfl).2.2.1⟩

/-! ## Socket: connect (C13, C14, C15, C19) -/

/-- C13, the claim fails on a datagram socket: the OS lets a connected datagram
socket connect again, so `connect` to the null address (the "disconnect" of
the source) or to another peer returns true without error and replaces
`peerAddress`. -/
theorem Socket.connect_datagram_again :
    connectedDatagram.peerAddress = ⟨7, 1935⟩ ∧
    (connectedDatagram.connect ⟨.ok, .ready⟩ none SocketAddress.Wildcard 0).ok = true ∧
    (connectedDatagram.connect ⟨.ok, .ready⟩ none SocketAddress.Wildcard 0).ex = none ∧
    (connectedDatagram.connect ⟨.ok, .ready⟩ none SocketAddress.Wildcard 0).socket.peerAddress =
      SocketAddress.Wildcard ∧
    (connectedDatagram.connect ⟨.ok, .ready⟩ none ⟨9, 80⟩ 0).ok = true ∧
    (connectedDatagram.connect ⟨.ok, .ready⟩ none ⟨9, 80⟩ 0).ex = none ∧
    (connectedDatagram.connect ⟨.ok, .ready⟩ none ⟨9, 80⟩ 0).socket.peerAddress = ⟨9, 80⟩ := by
  decide

/-- C13 as amended: on a socket without sticky error that is connected to `A`,
`connect(A)` returns true, leaves the exception and `peerAddress` as they are
whatever the OS answers; `connect(B)` with `B ≠ A` returns false with
`NET_EISCONN` and changes nothing of the socket when the OS `connect` reports
an error, and returns true with `peerAddress = B` when the OS `connect`
succeeds.  Stream and datagram sockets alike. -/
theorem Socket.connect_again (s : Socket) (os : ConnectOS) (ex : Option Exception)
    (A B : SocketAddress) (timeout : Nat)
    (hx : s.sockex = none) (hp : s.peerAddress = A) (hA : A.toBool = true) :
    ((s.connect os ex A timeout).ok = true ∧
      (s.connect os ex A timeout).ex = ex ∧
      (s.connect os ex A timeout).socket.peerAddress = A) ∧
    (B ≠ A → ∀ e, os.connect = .failed e →
      (s.connect os ex B timeout).ok = false ∧
      (s.connect os ex B timeout).ex = some ⟨some .NET_EISCONN⟩ ∧
      (s.connect os ex B timeout).socket = s) ∧
    (B ≠ A → os.connect = .ok →
      (s.connect os ex B timeout).ok = true ∧
      (s.connect os ex B timeout).ex = ex ∧
      (s.connect os ex B timeout).socket.peerAddress = B) := by
  subst hp
  refine ⟨?_, ?_, ?_⟩
  · cases hc : os.connect with
    | ok => simp [Socket.connect, hx, hc]
    | failed e => simp [Socket.connect, hx, hc, hA]
  · intro hB e hc
    have hne : ¬ s.peerAddress = B := fun h => hB h.symm
    simp [Socket.connect, hx, hc, hA, hne, SetException]
  · intro _ hc
    simp [Socket.connect, hx, hc]

theorem Socket.connect_again_witness :
    ((connectedStream.connect ⟨.failed .NET_EISCONN, .ready⟩ none ⟨7, 1935⟩ 0).ok = true ∧
      (connectedStream.connect ⟨.failed .NET_EISCONN, .ready⟩ none ⟨7, 1935⟩ 0).ex = none ∧
      (connectedStream.connect ⟨.failed .NET_EISCONN, .ready⟩ none ⟨7, 1935⟩ 0).socket.peerAddress =
        ⟨7, 1935⟩) ∧
    ((connectedStream.connect ⟨.failed .NET_EISCONN, .ready⟩ none ⟨9, 80⟩ 0).ok = false ∧
      (connectedStream.connect ⟨.failed .NET_EISCONN, .ready⟩ none ⟨9, 80⟩ 0).ex =
        some ⟨some .NET_EISCONN⟩ ∧
      (connectedStream.connect ⟨.failed .NET_EISCONN, .ready⟩ none ⟨9, 80⟩ 0).socket =
        connectedStream) :=
  ⟨(Socket.connect_again connectedStream ⟨.failed .NET_EISCONN, .ready⟩ none ⟨7, 1935⟩ ⟨9, 80⟩ 0
      rfl rfl (by decide)).1,
   (Socket.connect_again connectedStream ⟨.failed .NET_EISCONN, .ready⟩ none ⟨7, 1935⟩ ⟨9, 80⟩ 0
      rfl rfl (by decide)).2.1 (by decide) .NET_EISCONN rfl⟩

/-- C14, the claim fails: with `timeout == 0` and an OS `connect` in progress,
`connect` records the peer address but returns false, with the exception
`NET_EWOULDBLOCK`. -/
theorem Socket.connect_in_progress_false :
    (streamSocket.connect (inProgressOS .ready) none ⟨7, 1935⟩ 0).ok = false ∧
    (streamSocket.connect (inProgressOS .ready) none ⟨7, 1935⟩ 0).ex =
      some ⟨some .NET_EWOULDBLOCK⟩ ∧
    (streamSocket.connect (inProgressOS .ready) none ⟨7, 1935⟩ 0).socket.peerAddress = ⟨7, 1935⟩ := by
  decide

/-- C14 as amended: on a socket without sticky error and without peer address,
when `connect` is called with `timeout == 0` and the OS `connect` reports
`NET_EINPROGRESS`, `NET_EWOULDBLOCK` or `NET_EALREADY`, `connect` records the
address as `peerAddress` (and marks the local address as to be computed), sets
the exception `NET_EWOULDBLOCK` and returns false; the only OS call is the
`::connect`. -/
theorem Socket.connect_in_progress (s : Socket) (os : ConnectOS) (ex : Option Exception)
    (address : SocketAddress) (e : NetError)
    (hx : s.sockex = none) (hp : s.peerAddress.toBool = false)
    (hc : os.connect = .failed e)
    (he : e = .NET_EINPROGRESS ∨ e = .NET_EWOULDBLOCK ∨ e = .NET_EALREADY) :
    (s.connect os ex address 0).ok = false ∧
    (s.connect os ex address 0).ex = some ⟨some .NET_EWOULDBLOCK⟩ ∧
    (s.connect os ex address 0).socket =
      { s with address := SocketAddress.Computable, peerAddress := address } ∧
    (s.connect os ex address 0).calls =
      [.connect (if s.type = .TYPE_DATAGRAM ∧ !address.toBool
        then SocketAddress.Wildcard else address)] := by
  rcases he with h | h | h <;> subst h <;>
    simp [Socket.connect, hx, hc, hp, SetException]

theorem Socket.connect_in_progress_witness :
    (datagramSocket.connect ⟨.failed .NET_EALREADY, .ready⟩ none ⟨7, 1935⟩ 0).ok = false ∧
    (datagramSocket.connect ⟨.failed .NET_EALREADY, .ready⟩ none ⟨7, 1935⟩ 0).ex =
      some ⟨some .NET_EWOULDBLOCK⟩ ∧
    (datagramSocket.connect ⟨.failed .NET_EALREADY, .ready⟩ none ⟨7, 1935⟩ 0).socket.peerAddress =
      ⟨7, 1935⟩ :=
  ⟨(Socket.connect_in_progress datagramSocket ⟨.failed .NET_EALREADY, .ready⟩ none ⟨7, 1935⟩
      .NET_EALREADY rfl rfl rfl (Or.inr (Or.inr rfl))).1,
   (Socket.connect_in_progress datagramSocket ⟨.failed .NET_EALREADY, .ready⟩ none ⟨7, 1935⟩
      .NET_EALREADY rfl rfl rfl (Or.inr (Or.inr rfl))).2.1,
   congrArg Socket.peerAddress
    (Socket.connect_in_progress datagramSocket ⟨.failed .NET_EALREADY, .ready⟩ none ⟨7, 1935⟩
      .NET_EALREADY rfl rfl rfl (Or.inr (Or.inr rfl))).2.2.1⟩

/-- C15: a connect in progress with a timeout of 5 seconds whose `select`
reports 0 ready descriptors.  `connect` returns false and does not record the
peer address, but the exception carries what `Net::LastError()` returns at
that moment (the in-progress code left by `::connect`, or no code), not
`NET_ECONNREFUSED`; `NET_ECONNREFUSED` is what a failing `select` gives. -/
theorem Socket.connect_timeout_error :
    (streamSocket.connect (inProgressOS (.timedOut (some .NET_EINPROGRESS))) none ⟨7, 1935⟩ 5).ok =
      false ∧
    (streamSocket.connect (inProgressOS (.timedOut (some .NET_EINPROGRESS))) none
      ⟨7, 1935⟩ 5).socket.peerAddress = SocketAddress.Wildcard ∧
    (streamSocket.connect (inProgressOS (.timedOut (some .NET_EINPROGRESS))) none ⟨7, 1935⟩ 5).ex =
      some ⟨some .NET_EINPROGRESS⟩ ∧
    (streamSocket.connect (inProgressOS (.timedOut none)) none ⟨7, 1935⟩ 5).ex = some ⟨none⟩ ∧
    (streamSocket.connect (inProgressOS .failed) none ⟨7, 1935⟩ 5).ex =
      some ⟨some .NET_ECONNREFUSED⟩ ∧
    (streamSocket.connect (inProgressOS (.timedOut (some .NET_EINPROGRESS))) none ⟨7, 1935⟩ 5).calls =
      [.ioctl true, .connect ⟨7, 1935⟩, .ioctl false, .select 5] := by
  decide

/-- C19: a connect in progress with a timeout of 5 seconds whose `select`
reports the socket writable.  `connect` records the peer address and leaves
the exception unset, but returns false. -/
theorem Socket.connect_ready_false :
    (streamSocket.connect (inProgressOS .ready) none ⟨7, 1935⟩ 5).ok = false ∧
    (streamSocket.connect (inProgressOS .ready) none ⟨7, 1935⟩ 5).ex = none ∧
    (streamSocket.connect (inProgressOS .ready) none ⟨7, 1935⟩ 5).socket.peerAddress = ⟨7, 1935⟩ ∧
    (datagramSocket.connect (inProgressOS .ready) none ⟨7, 1935⟩ 5).ok = false ∧
    (datagramSocket.connect (inProgressOS .ready) none ⟨7, 1935⟩ 5).ex = none := by
  decide

/-! ## Socket: the sticky error (C16) -/

/-- C16: `write` on a stream socket whose creation failed.  `sendTo` reports
the sticky error without a send, and `write` returns -1 with that error, but
it then calls `::shutdown` on the socket: one OS call is made.  `flush` and
`sendTo` on the same socket make none. -/
theorem Socket.write_sticky_shutdown :
    (failedSocket.write (roomyOS 10) none [1, 2, 3] SocketAddress.Wildcard 0).rc = -1 ∧
    (failedSocket.write (roomyOS 10) none [1, 2, 3] SocketAddress.Wildcard 0).ex =
      failedSocket.sockex ∧
    (failedSocket.write (roomyOS 10) none [1, 2, 3] SocketAddress.Wildcard 0).os.sendCalls = 0 ∧
    (failedSocket.write (roomyOS 10) none [1, 2, 3] SocketAddress.Wildcard 0).os.shutdowns = 1 ∧
    (failedSocket.flush (roomyOS 10) none).ok = false ∧
    (failedSocket.flush (roomyOS 10) none).os.sendCalls = 0 ∧
    (failedSocket.flush (roomyOS 10) none).os.shutdowns = 0 ∧
    (failedSocket.sendTo (roomyOS 10) none [1, 2, 3] SocketAddress.Wildcard 0).os.sendCalls = 0 := by
  decide

/-! ## FlashStream: play that fails (C11) -/

theorem disengage_clears (fs : FlashStream) (trace : List Event) (pWriter : Option Nat) :
    (fs.disengage trace pWriter).1.pPublication = none ∧
    (fs.disengage trace pWriter).1.pSubscription = none := by
  obtain ⟨id, pub, sub, bufferTime, track, media⟩ := fs
  cases pub <;> cases sub <;>
    simp [FlashStream.disengage, FlashStream.disengagePublication,
      FlashStream.disengageSubscription]

/-- C11, the claim fails on a stream that has a role: "play" of an unknown
name on a stream that plays "live" first disengages, so the status
NetStream.Play.Stop is written before the status error; two messages are
written, not one. -/
theorem FlashStream.play_failure_after_stop :
    (playingStream.messageHandler liveAPI [] "play" [.string "ghost"] 4).2 =
      [.status 4 "NetStream.Play.Stop" "Stopped playing live", .onStop 1 4, .unsubscribe "live",
       .subscribe "ghost",
       .statusError 4 "NetStream.Play.StreamNotFound" "ghost not found"] ∧
    ((playingStream.messageHandler liveAPI [] "play" [.string "ghost"] 4).2.filter
      Event.written).length = 2 := by
  decide

/-- C11 as amended: when "play" of the stream `n` is handled and
`api.subscribe` fails with the exception `e`, the handler appends to what
`disengage` does for the previous role the call of `api.subscribe` and one
status error with the text of `e`, NetStream.Play.StreamNotFound when `e` is
an `Ex::Unfound` and NetStream.Play.Failed otherwise, and nothing else; the
stream holds neither subscription nor publication afterwards.  On a stream
without role that status error is the only message written. -/
theorem FlashStream.play_failure (fs : FlashStream) (api : ServerAPI) (trace : List Event)
    (n : String) (rest : List AMFValue) (writer : Nat) (e : ApiException)
    (hf : api.subscribe n { target := writer } = .error e) :
    (fs.messageHandler api trace "play" (.string n :: rest) writer).2 =
      (fs.disengage trace (some writer)).2 ++
        [.subscribe n,
         .statusError writer
          (if e.kind = .Unfound then "NetStream.Play.StreamNotFound" else "NetStream.Play.Failed")
          e.message] ∧
    (fs.messageHandler api trace "play" (.string n :: rest) writer).1.pSubscription = none ∧
    (fs.messageHandler api trace "play" (.string n :: rest) writer).1.pPublication = none ∧
    (fs.pPublication = none → fs.pSubscription = none →
      ((fs.messageHandler api trace "play" (.string n :: rest) writer).2.drop trace.length).filter
          Event.written =
        [.statusError writer
          (if e.kind = .Unfound then "NetStream.Play.StreamNotFound" else "NetStream.Play.Failed")
          e.message]) := by
  have htrace : (fs.messageHandler api trace "play" (.string n :: rest) writer).2 =
      (fs.disengage trace (some writer)).2 ++
        [.subscribe n,
         .statusError writer
          (if e.kind = .Unfound then "NetStream.Play.StreamNotFound" else "NetStream.Play.Failed")
          e.message] := by
    simp [FlashStream.messageHandler, readString, hf]
  refine ⟨htrace, ?_, ?_, ?_⟩
  · simp [FlashStream.messageHandler, readString, hf]
  · simp only [FlashStream.messageHandler, if_true, readString, Option.getD_some, hf]
    exact (disengage_clears fs trace (some writer)).1
  · intro hp hs
    have hd : fs.disengage trace (some writer) = (fs, trace) := by
      simp [FlashStream.disengage, FlashStream.disengagePublication,
        FlashStream.disengageSubscription, hp, hs]
    rw [htrace, hd, List.drop_left]
    simp [Event.written]

theorem FlashStream.play_failure_witness :
    (idleStream.messageHandler liveAPI [] "play" [.string "ghost"] 4).2 =
      [.subscribe "ghost", .statusError 4 "NetStream.Play.StreamNotFound" "ghost not found"] ∧
    (idleStream.messageHandler liveAPI [] "play" [.string "ghost"] 4).1.pSubscription = none :=
  ⟨(FlashStream.play_failure idleStream liveAPI [] "ghost" [] 4 ⟨.Unfound, "ghost not found"⟩
      rfl).1,
   (FlashStream.play_failure idleStream liveAPI [] "ghost" [] 4 ⟨.Unfound, "ghost not found"⟩
      rfl).2.1⟩

/-! ## FlashStream: publish with record (C12) -/

theorem findChar_none (c : Char) (l : List Char) (h : c ∉ l) : findChar c l = none := by
  have : ¬ List.indexOf c l < l.length := by
    rw [List.indexOf_lt_length]; exact h
  simp [findChar, this]

theorem findChar_append (c : Char) (l r : List Char) (h : c ∉ l) :
    findChar c (l ++ c :: r) = some l.length := by
  have h1 : List.indexOf c (l ++ c :: r) = l.length := by
    rw [List.indexOf_append_of_not_mem h, List.indexOf_cons_self]; rfl
  simp [findChar, h1]

theorem findChar_isSome (c : Char) (l : List Char) : (findChar c l).isSome = true ↔ c ∈ l := by
  unfold findChar
  simp only
  split_ifs with h
  · simp [List.indexOf_lt_length.mp h]
  · simp only [Option.isSome_none, Bool.false_eq_true, false_iff]
    exact fun hm => h (List.indexOf_lt_length.mpr hm)

theorem findLastOf_eq_none (c : Char) (l : List Char) (pos : Option Nat) :
    findLastOf c l pos = none ↔
      c ∉ (match pos with | some p => l.take (p + 1) | none => l) := by
  unfold findLastOf
  simp only
  generalize (match pos with | some p => l.take (p + 1) | none => l) = searched
  have := findChar_isSome c searched.reverse
  cases hf : findChar c searched.reverse with
  | none => rw [hf] at this; simp at this; simp [this]
  | some i => rw [hf] at this; simp at this; simp [this]

theorem record_not_append (mode : String) (hm : ICompareEq mode "record" = true) :
    ICompareEq mode "append" = false := by
  unfold ICompareEq at hm ⊢
  rw [beq_iff_eq] at hm
  rw [hm]
  decide

theorem publishName_record (s mode : String) (part query : List Char)
    (hm : ICompareEq mode "record" = true) (hs : s.data = part ++ query) (hp : '?' ∉ part)
    (hq : query = [] ∨ query.head? = some '?') :
    publishName s (some mode) =
      if '.' ∈ part then s else String.mk (part ++ ".flv".data ++ query) := by
  have ha := record_not_append mode hm
  have hr := hm
  unfold publishName
  simp only [ha, hr, Bool.false_eq_true, if_false, if_true]
  rcases hq with hq | hq
  · subst hq
    rw [List.append_nil] at hs
    have hfound : findChar '?' s.data = none := by rw [hs]; exact findChar_none _ _ hp
    rw [hfound]
    by_cases hdot : '.' ∈ part
    · have : findLastOf '.' s.data none ≠ none := by
        rw [Ne, findLastOf_eq_none]; simp [hs, hdot]
      cases hl : findLastOf '.' s.data none with
      | none => exact absurd hl this
      | some i => simp [hdot]
    · have : findLastOf '.' s.data none = none := by
        rw [findLastOf_eq_none]; simp [hs, hdot]
      rw [this]
      simp only [hdot, if_false, List.append_nil]
      rw [← hs]; rfl
  · cases query with
    | nil => simp at hq
    | cons q rest =>
      simp only [List.head?_cons, Option.some.injEq] at hq
      subst hq
      have hfound : findChar '?' s.data = some part.length := by
        rw [hs]; exact findChar_append _ _ _ hp
      rw [hfound]
      have htake : s.data.take (part.length + 1) = part ++ ['?'] := by
        rw [hs]; simp [List.take_append_eq_append_take]
      by_cases hdot : '.' ∈ part
      · have : findLastOf '.' s.data (some part.length) ≠ none := by
          rw [Ne, findLastOf_eq_none]; simp [htake, hdot]
        cases hl : findLastOf '.' s.data (some part.length) with
        | none => exact absurd hl this
        | some i => simp [hdot]
      · have : findLastOf '.' s.data (some part.length) = none := by
          rw [findLastOf_eq_none]; simp [htake, hdot]
        rw [this]
        simp only [hdot, if_false]
        rw [hs]; simp


/-- C12: "publish" of the stream name `s` with a mode equal to "record" up to
the case of letters, where `s` is `part` followed by `query`, `part` has no
'?' and `query` is empty or starts with '?'.  The name given to `api.publish`
is `s` itself when `part` contains a '.', and `part`, ".flv" and `query` in
this order when it does not.  When `api.publish` returns a publication, the
status NetStream.Publish.Start with the description "name is now published"
is written right after the call. -/
theorem FlashStream.publish_record (fs : FlashStream) (api : ServerAPI) (trace : List Event)
    (s mode : String) (rest : List AMFValue) (writer : Nat) (part query : List Char)
    (hm : ICompareEq mode "record" = true) (hs : s.data = part ++ query) (hp : '?' ∉ part)
    (hq : query = [] ∨ query.head? = some '?') :
    publishName s (some mode) =
      (if '.' ∈ part then s else String.mk (part ++ ".flv".data ++ query)) ∧
    (∃ tail, (fs.messageHandler api trace "publish" (.string s :: .string mode :: rest) writer).2 =
      (fs.disengage trace (some writer)).2 ++ .publish (publishName s (some mode)) :: tail) ∧
    (∀ publication ex, api.publish (publishName s (some mode)) = (some publication, ex) →
      ∃ tail, (fs.messageHandler api trace "publish" (.string s :: .string mode :: rest) writer).2 =
        (fs.disengage trace (some writer)).2 ++
          [.publish (publishName s (some mode)),
           .status writer "NetStream.Publish.Start"
            (publishName s (some mode) ++ " is now published")] ++ tail) := by
  refine ⟨publishName_record s mode part query hm hs hp hq, ?_, ?_⟩
  · rcases hpub : api.publish (publishName s (some mode)) with ⟨_ | publication, ex⟩
    · exact ⟨_, by simp [FlashStream.messageHandler, readString, hpub]; rfl⟩
    · exact ⟨_, by simp [FlashStream.messageHandler, readString, hpub]; rfl⟩
  · intro publication ex hpub
    exact ⟨_, by simp [FlashStream.messageHandler, readString, hpub]; rfl⟩

theorem FlashStream.publish_record_witness :
    publishName "clip?x=1" (some "Record") = "clip.flv?x=1" ∧
    publishName "clip" (some "record") = "clip.flv" ∧
    publishName "a.mp4?x=1" (some "RECORD") = "a.mp4?x=1" :=
  ⟨(FlashStream.publish_record idleStream liveAPI [] "clip?x=1" "Record" [] 4
      "clip".data "?x=1".data (by decide) rfl (by decide) (Or.inr rfl)).1.trans (by decide),
   (FlashStream.publish_record idleStream liveAPI [] "clip" "record" [] 4
      "clip".data [] (by decide) rfl (by decide) (Or.inl rfl)).1.trans (by decide),
   (FlashStream.publish_record idleStream liveAPI [] "a.mp4?x=1" "RECORD" [] 4
      "a.mp4".data "?x=1".data (by decide) rfl (by decide) (Or.inr rfl)).1.trans (by decide)⟩

/-! ## RTMFPWriter: closing (C17) -/

theorem write_keeps (w : RTMFPWriter) (type time : Nat) (packet : Packet) (reliable : Bool) :
    (w.write type time packet reliable).stageAck = w.stageAck ∧
    (w.write type time packet reliable).repeatDelay = w.repeatDelay ∧
    (w.write type time packet reliable).closed = w.closed := by
  unfold RTMFPWriter.write RTMFPWriter.body RTMFPWriter.newMessage
  simp only
  split_ifs <;> simp_all

theorem writes_keep (base : List WriteCall) (w : RTMFPWriter) :
    (base.foldl (fun w c => w.write c.type c.time c.packet c.reliable) w).stageAck = w.stageAck ∧
    (base.foldl (fun w c => w.write c.type c.time c.packet c.reliable) w).repeatDelay =
      w.repeatDelay ∧
    (base.foldl (fun w c => w.write c.type c.time c.packet c.reliable) w).closed = w.closed := by
  induction base generalizing w with
  | nil => exact ⟨rfl, rfl, rfl⟩
  | cons c base ih =>
    obtain ⟨h1, h2, h3⟩ := write_keeps w c.type c.time c.packet c.reliable
    obtain ⟨i1, i2, i3⟩ := ih (w.write c.type c.time c.packet c.reliable)
    rw [List.foldl_cons]
    exact ⟨i1.trans h1, i2.trans h2, i3.trans h3⟩

/-- C17, the claim fails for a negative close code: a writer at stage 10 with a
running repeat delay that is closed with code -1 gets no message. -/
theorem RTMFPWriter.closing_negative_code :
    writer10.stageAck = 10 ∧ writer10.repeatDelay = 3000 ∧ writer10.closed = false ∧
    (writer10.closing [] (-1)).pSender = none ∧
    writer10.closing [] (-1) = writer10 := by
  decide

/-- C17 as amended: after the messages that `FlashWriter::closing` writes
(`base`), `closing` appends one message to the draft, reliable and with an
empty body, when the code is not negative, the writer is not closed and
`stageAck` or `repeatDelay` is not 0; it appends nothing when the code is
negative or when both are 0. -/
theorem RTMFPWriter.closing_end (w : RTMFPWriter) (base : List WriteCall) (code : Int) :
    (0 ≤ code → (w.stageAck ≠ 0 ∨ w.repeatDelay ≠ 0) → w.closed = false →
      (w.closing base code).pSender =
        some (((base.foldl (fun w c => w.write c.type c.time c.packet c.reliable) w).pSender.getD
          []) ++ [{ reliable := true, packet := [], body := [] }])) ∧
    (code < 0 ∨ (w.stageAck = 0 ∧ w.repeatDelay = 0) →
      w.closing base code =
        base.foldl (fun w c => w.write c.type c.time c.packet c.reliable) w) := by
  obtain ⟨h1, h2, h3⟩ := writes_keep base w
  constructor
  · intro hc ha hcl
    have hcond : code ≥ 0 ∧
        ((base.foldl (fun w c => w.write c.type c.time c.packet c.reliable) w).stageAck ≠ 0 ∨
         (base.foldl (fun w c => w.write c.type c.time c.packet c.reliable) w).repeatDelay ≠ 0) := by
      rw [h1, h2]; exact ⟨hc, ha⟩
    unfold RTMFPWriter.closing
    simp only [hcond, and_self, if_true]
    unfold RTMFPWriter.newMessage
    simp [h3, hcl]
  · intro hc
    have hcond : ¬ (code ≥ 0 ∧
        ((base.foldl (fun w c => w.write c.type c.time c.packet c.reliable) w).stageAck ≠ 0 ∨
         (base.foldl (fun w c => w.write c.type c.time c.packet c.reliable) w).repeatDelay ≠ 0)) := by
      rw [h1, h2]
      rcases hc with hc | ⟨hs, hr⟩
      · intro h; omega
      · intro h; rcases h.2 with h | h
        · exact h hs
        · exact h hr
    unfold RTMFPWriter.closing
    simp only [hcond, if_false]

theorem RTMFPWriter.closing_end_witness :
    (writer10.closing [] 0).pSender = some [{ reliable := true, packet := [], body := [] }] ∧
    ({ pQueue := writer10.pQueue } : RTMFPWriter).closing [] 0 = { pQueue := writer10.pQueue } :=
  ⟨(RTMFPWriter.closing_end writer10 [] 0).1 (by decide) (Or.inl (by decide)) rfl,
   (RTMFPWriter.closing_end { pQueue := writer10.pQueue } [] 0).2 (Or.inr ⟨rfl, rfl⟩)⟩

/-! ## FlashStream: disengage (C18) -/

/-- C18: `disengage` with a writer, on any stream.  For a publication it
writes the status NetStream.Record.Stop if the publication records, then the
status NetStream.Unpublish.Success, and then calls `api.unpublish`.  For a
subscription it writes the status error of the eject reason (timeout:
NetStream.Play.StreamNotFound, bandwidth: NetStream.Play.InsufficientBW,
error: NetStream.Play.Failed, none when not ejected), then the status
NetStream.Play.Stop, raises `onStop`, and then calls `api.unsubscribe`.
Nothing else happens, and the stream holds neither publication nor
subscription afterwards. -/
theorem FlashStream.disengage_order (fs : FlashStream) (trace : List Event) (writer : Nat) :
    (fs.disengage trace (some writer)).1.pPublication = none ∧
    (fs.disengage trace (some writer)).1.pSubscription = none ∧
    (fs.disengage trace (some writer)).2 =
      trace ++
      (match fs.pPublication with
        | none => []
        | some publication =>
          (if publication.recording then
            [Event.status writer "NetStream.Record.Stop" (publication.name ++ " recording stopped")]
           else []) ++
          [.status writer "NetStream.Unpublish.Success" (publication.name ++ " is now unpublished"),
           .unpublish publication.name]) ++
      (match fs.pSubscription with
        | none => []
        | some subscription =>
          (match subscription.ejected with
            | .EJECTED_TIMEOUT =>
              [Event.statusError writer "NetStream.Play.StreamNotFound"
                (subscription.name ++ " not found")]
            | .EJECTED_BANDWITDH =>
              [Event.statusError writer "NetStream.Play.InsufficientBW"
                ("Insufficient bandwidth to play " ++ subscription.name)]
            | .EJECTED_ERROR =>
              [Event.statusError writer "NetStream.Play.Failed"
                ("Unknown error to play " ++ subscription.name)]
            | .EJECTED_NONE => []) ++
          [.status writer "NetStream.Play.Stop" ("Stopped playing " ++ subscription.name),
           .onStop fs.id writer, .unsubscribe subscription.name]) := by
  refine ⟨(disengage_clears fs trace (some writer)).1, (disengage_clears fs trace (some writer)).2, ?_⟩
  obtain ⟨id, pub, sub, bufferTime, track, media⟩ := fs
  cases pub <;> cases sub <;>
    simp [FlashStream.disengage, FlashStream.disengagePublication,
      FlashStream.disengageSubscription]

/-! ## FlashStream: the control commands of dataHandler (C20) -/

/-- C20: a packet of four bytes, the AMF0 string marker, the length 6 and '@',
on a publishing stream.  The comparison with "@track" reads the '@' at index 3
and then index 4, which is the size of the packet.  A packet that announces
"@clearDataFrame" and ends after "@clear" is read up to its size, 9. -/
theorem FlashStream.command_reads_outside :
    ([0x02, 0x00, 0x06, 0x40] : Packet).length = 4 ∧
    publishingStream.commandReads [0x02, 0x00, 0x06, 0x40] = [3, 4] ∧
    (∃ i ∈ publishingStream.commandReads [0x02, 0x00, 0x06, 0x40],
      i ≥ ([0x02, 0x00, 0x06, 0x40] : Packet).length) ∧
    publishingStream.commandReads [0x02, 0x00, 0x0F, 0x40, 0x63, 0x6C, 0x65, 0x61, 0x72] =
      [3, 4, 5, 6, 7, 8, 9] := by
  refine ⟨by decide, by decide, ⟨4, by decide, by decide⟩, by decide⟩

/-! ## FlashStream: one role at a time (C21) -/

theorem subscriptionHandler_publication (fs : FlashStream) (trace : List Event) (name : String)
    (message : List AMFValue) (writer : Nat) (sub : Subscription) :
    ((fs.subscriptionHandler trace name message writer sub).getD (fs, trace)).1.pPublication =
      fs.pPublication := by
  unfold FlashStream.subscriptionHandler
  simp only
  repeat' split
  all_goals rfl

theorem messageHandler_oneRole (fs : FlashStream) (api : ServerAPI) (trace : List Event)
    (name : String) (message : List AMFValue) (writer : Nat) (h : fs.oneRole) :
    (fs.messageHandler api trace name message writer).1.oneRole := by
  obtain ⟨hdp, hds⟩ := disengage_clears fs trace (some writer)
  unfold FlashStream.messageHandler
  split_ifs with h1 h2 h3
  · left
    simp only
    cases api.subscribe ((readString message).1.getD "") { target := writer } with
    | error ex => exact hdp
    | ok sub => exact hdp
  · exact Or.inl hdp
  · right
    simp only
    rcases api.publish (publishName ((readString message).1.getD "")
        (readString (readString message).2).1) with ⟨_ | publication, ex⟩
    · exact hds
    · exact hds
  · cases hs : fs.pSubscription with
    | none => exact h
    | some sub =>
      left
      simp only
      rw [subscriptionHandler_publication]
      rcases h with h | h
      · exact h
      · rw [hs] at h; cases h

theorem call_oneRole (st : FlashStream × List Event) (c : StreamCall) (h : st.1.oneRole) :
    (FlashStream.call st c).1.oneRole := by
  cases c with
  | message api name message writer =>
    exact messageHandler_oneRole st.1 api st.2 name message writer h
  | flush =>
    simp only [FlashStream.call, FlashStream.flush]
    cases hs : st.1.pSubscription with
    | none => exact h
    | some sub =>
      simp only
      split_ifs
      · exact Or.inl (disengage_clears st.1 _ _).1
      · exact h
  | disengage pWriter => exact Or.inl (disengage_clears st.1 st.2 pWriter).1
  | bufferTime ms =>
    rcases h with h | h
    · exact Or.inl h
    · right
      simp [FlashStream.call, FlashStream.setBufferTime, h]

theorem run_oneRole (calls : List StreamCall) (st : FlashStream × List Event)
    (h : st.1.oneRole) : (FlashStream.run st calls).1.oneRole := by
  induction calls generalizing st with
  | nil => exact h
  | cons c calls ih =>
    simp only [FlashStream.run, List.foldl_cons]
    exact ih (FlashStream.call st c) (call_oneRole st c h)

/-- C21: starting from a newly constructed stream, after every sequence of
invocations handled by `messageHandler` (any name, any arguments, any writer,
whatever `api.subscribe` and `api.publish` answer at each of them), `flush`,
`disengage` and `bufferTime` calls, the publication or the subscription of
the stream is unset. -/
theorem FlashStream.never_both (id : Nat) (calls : List StreamCall) :
    (FlashStream.run (FlashStream.new id, []) calls).1.pPublication = none ∨
    (FlashStream.run (FlashStream.new id, []) calls).1.pSubscription = none :=
  run_oneRole calls (FlashStream.new id, []) (Or.inl rfl)

end Mona
